import Mathlib

/-!
Verification development for the `ShortChannelDeleter` topology-cleanup pass of
the dflowfm2threedi repository (`dflowfm2threedi/postprocessing.py`).

The embedding models the mutable geopackage the code edits as a pure store of
named layers of features; every method of `ShortChannelDeleter` (and the free
function `move_vertex_in_geometry`) is translated line by line into a pure
function on an explicit state.  Fallible code paths (Python exceptions) are
modelled with `Except String`.  The geometric length computation is performed
by the external OGR library in the source, so the model takes it as a parameter
`lenG : Geom → Int` and concrete developments instantiate it with an exact
function that agrees with the Euclidean length on the (axis-aligned) geometries
they use.
-/

namespace D2T

/-- Connection-node identifiers and integer attribute values of the geopackage. -/
abbrev NodeId := Int

/-- A coordinate value.  The source manipulates double-precision coordinates
through OGR, but the compactor itself never computes with them: it only copies
them between geometries and compares geometry lengths produced by the external
OGR `Length()` call (the `lenG` parameter below).  The embedding therefore
carries coordinates as exact integers, which covers every assignment and
comparison the code performs on the concrete geometries considered. -/
abbrev Coord := Int

/-- A geometry vertex.  The `z` component is meaningful only when the owning
geometry is three-dimensional (`Geom.is3D`); two-dimensional geometries carry
`0` there by convention. -/
structure Pt where
  x : Coord
  y : Coord
  z : Coord
deriving DecidableEq

/-- An OGR geometry (point or line string): its coordinate dimension
(`GetCoordinateDimension() == 3` in the source) and its vertex list. -/
structure Geom where
  is3D : Bool
  pts : List Pt
deriving DecidableEq

instance {ε α : Type} [DecidableEq ε] [DecidableEq α] : DecidableEq (Except ε α) :=
  fun a b =>
    match a, b with
    | .ok x, .ok y =>
      if h : x = y then .isTrue (by rw [h]) else .isFalse (by intro hc; cases hc; exact h rfl)
    | .error x, .error y =>
      if h : x = y then .isTrue (by rw [h]) else .isFalse (by intro hc; cases hc; exact h rfl)
    | .ok _, .error _ => .isFalse (by intro hc; cases hc)
    | .error _, .ok _ => .isFalse (by intro hc; cases hc)

/-- Association-list lookup, first binding wins (Python dict lookup; the dicts
built by the code keep their keys unique). -/
def lookupAssoc {α β : Type} [DecidableEq α] : List (α × β) → α → Option β
  | [], _ => none
  | (a, b) :: r, k => if k = a then some b else lookupAssoc r k

/-- Remove every binding of key `k`. -/
def eraseKey {α β : Type} [DecidableEq α] (l : List (α × β)) (k : α) : List (α × β) :=
  l.filter (fun p => decide (¬ p.1 = k))

/-- Python dict assignment `d[k] = v`: overwrite in place when the key is
present (the dicts the code builds keep their keys unique), append otherwise. -/
def updAssoc {α β : Type} [DecidableEq α] : List (α × β) → α → β → List (α × β)
  | [], k, v => [(k, v)]
  | (a, b) :: r, k, v => if a = k then (k, v) :: r else (a, b) :: updAssoc r k v

/-- Boolean membership test via decidable equality. -/
def memB {α : Type} [DecidableEq α] (y : α) (l : List α) : Bool :=
  l.any (fun x => decide (x = y))

/-- Assignment into `self._replaced_connection_nodes` (line 160 of the source).
The program only ever reads this dict through key lookups and membership tests,
for which head insertion after erasure agrees with Python dict assignment. -/
def chainInsert (l : List (NodeId × NodeId)) (k v : NodeId) : List (NodeId × NodeId) :=
  (k, v) :: eraseKey l k

/-- Fuel-indexed unfolding of the `while current_id in self._replaced_connection_nodes`
loop of `replaced_connection_node_id` (lines 86-90): each step follows one chain
link, and the walk stops as soon as the current identifier is unbound. -/
def resolveF (chain : List (NodeId × NodeId)) : Nat → NodeId → NodeId
  | 0, i => i
  | n + 1, i =>
    match lookupAssoc chain i with
    | none => i
    | some v => resolveF chain n v

/-- `ShortChannelDeleter.replaced_connection_node_id`: walk the replacement
chain.  The source uses an unbounded `while current_id in chain` loop; the
embedding supplies `chain.length` steps of fuel, enough whenever the walk
reaches an identifier that is not a chain key (on a chain containing a cycle —
which a run can produce, see the self-loop theorem below — the source loop
never exits, while this embedding returns the identifier it reached when the
fuel ran out). -/
def replaced_connection_node_id (chain : List (NodeId × NodeId)) (i : NodeId) : NodeId :=
  resolveF chain chain.length i

/-- A record of a geopackage layer: an integer feature identifier (FID), the
attribute fields as name/value pairs, and a geometry. -/
structure Feature where
  fid : Nat
  fields : List (String × Int)
  geom : Geom
deriving DecidableEq

/-- A named geopackage layer: its schema (attribute field names) and features. -/
structure LayerT where
  name : String
  fieldNames : List String
  feats : List Feature
deriving DecidableEq

/-- The geopackage contents: the list of layers. -/
abbrev Store := List LayerT

/-- An in-memory OGR feature handle, as stored inside the reverse index: a
snapshot of the feature (and its owning layer's name, `GetDefnRef().GetName()`)
taken when the index was built.  Python compares these handles by object
identity inside sets; value equality is faithful because each feature
contributes exactly one handle per index build. -/
structure FeatHandle where
  layer : String
  feat : Feature
deriving DecidableEq

/-- A `(layer_name, field_name, feature)` triple as returned by
`get_referencing_features`. -/
abbrev RefEntry := String × String × FeatHandle

/-- One value of `self.reference_dict`: the `"start"` and `"end"` lists of
referencing-feature triples recorded for a short channel. -/
structure RefPair where
  startRefs : List RefEntry
  endRefs : List RefEntry
deriving DecidableEq

/-- A per-layer reverse index
`{connection_node_id: {(connection_node_field, feature), ...}}`.  Python uses a
set of handles per bucket; the model keeps insertion-ordered duplicate-free
lists, which is faithful for every membership test and iteration the code
performs (set iteration order is unspecified in Python). -/
abbrev IndexT := List (NodeId × List (String × FeatHandle))

/-- The in-memory state of a `ShortChannelDeleter` instance together with the
geopackage it mutates. -/
structure SCDState where
  store : Store
  shortChannels : List FeatHandle
  indices : List (String × IndexT)
  referenceDict : List (Nat × RefPair)
  replacedNodes : List (NodeId × NodeId)
deriving DecidableEq

def NETWORK_OBJECTS : List String :=
  ["channel", "culvert", "orifice", "pipe", "pump_map", "weir"]

def MAPPING_OBJECTS : List String := ["surface_map"]

def POINT_OBJECTS : List String := ["boundary_condition_1d", "lateral_1d", "pump"]

def ALL_OBJECTS : List String := NETWORK_OBJECTS ++ MAPPING_OBJECTS ++ POINT_OBJECTS

/-- `GetLayerByName`.  The concrete stores below contain every layer the code
touches, so the default is never reached there. -/
def getLayerD (s : Store) (n : String) : LayerT :=
  (s.find? (fun l => decide (l.name = n))).getD ⟨n, [], []⟩

def getFeats (s : Store) (n : String) : List Feature := (getLayerD s n).feats

def setFeats (s : Store) (n : String) (fs : List Feature) : Store :=
  s.map (fun l => if l.name = n then { l with feats := fs } else l)

/-- `layer.SetFeature(feature)`: persist a mutated feature by FID. -/
def setFeature (s : Store) (n : String) (f : Feature) : Store :=
  setFeats s n ((getFeats s n).map (fun g => if g.fid = f.fid then f else g))

def getFieldQ (f : Feature) (n : String) : Option Int :=
  (f.fields.find? (fun p => decide (p.1 = n))).map Prod.snd

/-- `feature[field_name]`.  Concrete features below carry every schema field,
so the `0` default is never reached there. -/
def getFieldD (f : Feature) (n : String) : Int := (getFieldQ f n).getD 0

def setField (f : Feature) (n : String) (v : Int) : Feature :=
  { f with fields := f.fields.map (fun p => if p.1 = n then (n, v) else p) }

def connFieldCandidates : List String :=
  ["connection_node_id", "connection_node_id_start", "connection_node_id_end"]

/-- The intersection of the possible connection-node field names with the
layer's schema (`_create_index`, lines 64-71). -/
def connFieldsOf (l : LayerT) : List String :=
  connFieldCandidates.filter (fun c => memB c l.fieldNames)

/-- `set.add` on a bucket. -/
def bucketAdd (b : List (String × FeatHandle)) (e : String × FeatHandle) :
    List (String × FeatHandle) :=
  if memB e b then b else b ++ [e]

/-- Record one `(field, handle)` entry under a node identifier
(`_create_index`, lines 74-78). -/
def indexAdd (idx : IndexT) (nid : NodeId) (e : String × FeatHandle) : IndexT :=
  match lookupAssoc idx nid with
  | some b => updAssoc idx nid (bucketAdd b e)
  | none => idx ++ [(nid, [e])]

/-- `ShortChannelDeleter._create_index` (lines 59-79). -/
def create_index (l : LayerT) : IndexT :=
  l.feats.foldl (fun idx f =>
    (connFieldsOf l).foldl (fun idx2 fld =>
      indexAdd idx2 (getFieldD f fld) (fld, ⟨l.name, f⟩)) idx) []

/-- `ShortChannelDeleter.get_referencing_features` (lines 92-105): collect the
`(layer_name, field_name, feature)` triples of the target layers' index buckets
for the node, excluding the channel's own self-references. -/
def get_referencing_features (indices : List (String × IndexT)) (channelId : Nat)
    (nodeId : NodeId) (targets : List String) : List RefEntry :=
  indices.foldl (fun acc p =>
    if memB p.1 targets then
      match lookupAssoc p.2 nodeId with
      | some b => acc ++ b.filterMap (fun e =>
          if p.1 = "channel" ∧ e.2.feat.fid = channelId then none
          else some (p.1, e.1, e.2))
      | none => acc
    else acc) []

/-- `ShortChannelDeleter._update_reference_dict` (lines 38-53): record, per
channel, the network features referencing its start and end nodes (the node
identifiers are read from the passed handle's field snapshot). -/
def update_reference_dict (st : SCDState) (channels : List FeatHandle) : SCDState :=
  { st with referenceDict := channels.foldl (fun d h =>
      let s := get_referencing_features st.indices h.feat.fid
        (getFieldD h.feat "connection_node_id_start") NETWORK_OBJECTS
      let e := get_referencing_features st.indices h.feat.fid
        (getFieldD h.feat "connection_node_id_end") NETWORK_OBJECTS
      updAssoc d h.feat.fid ⟨s, e⟩) st.referenceDict }

/-- `move_vertex_in_geometry` (lines 325-335): move the first or last vertex of
`target` to the location of `newVertex`, keeping a third coordinate only if
`target` already has one (taking the vertex's z when it has one, else 0). -/
def move_vertex_in_geometry (target : Geom) (newVertex : Geom)
    (firstOrLast : String) : Geom :=
  let p := newVertex.pts.headD ⟨0, 0, 0⟩
  let idx := if firstOrLast = "first" then 0 else target.pts.length - 1
  if target.is3D then
    let nz := if newVertex.is3D then p.z else 0
    { target with pts := target.pts.set idx ⟨p.x, p.y, nz⟩ }
  else
    { target with pts := target.pts.set idx ⟨p.x, p.y, 0⟩ }

/-- The field/role decision of `replace_connection_node` (lines 186-202): which
node-reference field of the feature matches the deleted identifier, and whether
the first or the last geometry vertex must move.  A mismatch raises
`RuntimeError` in the source. -/
def decideRole (fieldNames : List String) (feat : Feature) (deleteId : NodeId) :
    Except String (String × String) :=
  if memB "connection_node_id" fieldNames then
    if getFieldD feat "connection_node_id" = deleteId then
      .ok ("connection_node_id", "first")
    else
      .error ("This feature's connection_node_id != delete_id (" ++
        toString deleteId ++ ")")
  else if getFieldD feat "connection_node_id_start" = deleteId then
    .ok ("connection_node_id_start", "first")
  else if getFieldD feat "connection_node_id_end" = deleteId then
    .ok ("connection_node_id_end", "last")
  else
    .error ("This feature's connection_node_id_start and connection_node_id_end are not delete_id ("
      ++ toString deleteId ++ ")")

/-- `ShortChannelDeleter.replace_connection_node` (lines 169-239): repoint one
feature's node-reference field from `deleteId` to `replacementId`, move the
corresponding endpoint vertex to the replacement node's location, persist the
feature, and update this layer's reverse index (moving every entry of the bucket
of `deleteId` whose field name matches the updated field into the bucket of
`replacementId`, dropping the old bucket when it empties; a missing bucket is
logged and tolerated). -/
def replace_connection_node (st : SCDState) (layerName : String) (featureFid : Nat)
    (deleteId replacementId : NodeId) : Except String SCDState :=
  match (getLayerD st.store layerName).feats.find? (fun f => decide (f.fid = featureFid)) with
  | none =>
    if layerName = "channel" then .ok st
    else .error "feature not found in layer"
  | some feat =>
    match decideRole (getLayerD st.store layerName).fieldNames feat deleteId with
    | .error e => .error e
    | .ok (fld, firstOrLast) =>
      let feat1 := setField feat fld replacementId
      match (getFeats st.store "connection_node").find?
          (fun f => decide (getFieldD f "id" = replacementId)) with
      | none => .error "replacement connection node not found"
      | some node =>
        let feat2 := { feat1 with
          geom := move_vertex_in_geometry feat1.geom node.geom firstOrLast }
        match lookupAssoc ((lookupAssoc st.indices layerName).getD []) deleteId with
        | none => .ok { st with store := setFeature st.store layerName feat2 }
        | some bucket =>
          let r := bucket.foldl (fun (acc : IndexT × List (String × FeatHandle)) e =>
            if e.2.layer = layerName ∧ e.1 = fld then
              match lookupAssoc acc.1 replacementId with
              | some b => (updAssoc acc.1 replacementId (bucketAdd b e), acc.2)
              | none => (acc.1 ++ [(replacementId, [e])], acc.2)
            else (acc.1, acc.2 ++ [e])) ((lookupAssoc st.indices layerName).getD [], [])
          let idx2 := if r.2 = [] then eraseKey r.1 deleteId else updAssoc r.1 deleteId r.2
          .ok { st with
                store := setFeature st.store layerName feat2
                indices := updAssoc st.indices layerName idx2 }

/-- The connectivity guard of `delete_channel` (lines 118-122): true when some
feature handle occurs in both recorded reference lists. -/
def guardHit (refs : RefPair) : Bool :=
  refs.startRefs.any (fun e => memB e.2.2 (refs.endRefs.map (fun e2 => e2.2.2)))

/-- Left fold of a fallible step over a list, stopping at the first error (the
behaviour of a Python `for` loop whose body may raise). -/
def foldE {σ α : Type} (f : σ → α → Except String σ) : σ → List α → Except String σ
  | s, [] => .ok s
  | s, a :: l =>
    match f s a with
    | .error e => .error e
    | .ok s2 => foldE f s2 l

/-- The body of the repointing loop of `delete_channel` (lines 138-147): repoint
one referencing feature and, when it is a channel, refresh its recorded
reference lists (using the index handle, whose field values are the snapshot
taken when the index was built). -/
def repointStep (toDelete replacement : NodeId) (s : SCDState) (e : RefEntry) :
    Except String SCDState :=
  match replace_connection_node s e.1 e.2.2.feat.fid toDelete replacement with
  | .error er => .error er
  | .ok s1 => .ok (if e.1 = "channel" then update_reference_dict s1 [e.2.2] else s1)

/-- The deletion tail of `delete_channel` (lines 149-167): on the state left by
the repointing loop, delete the cross-section locations keyed to the channel,
delete the connection node(s) whose `id` attribute equals the merged-away node,
delete the channel by FID, record `toDelete ↦ replacement` in the replacement
chain and drop the channel's reference record.  The three successive layer
updates are written out nested (the source binds them sequentially). -/
def delCslStore (s : Store) (channelId : Nat) : Store :=
  setFeats s "cross_section_location"
    ((getFeats s "cross_section_location").filter
      (fun f => decide (¬ getFieldD f "channel_id" = Int.ofNat channelId)))

def delNodeStore (s : Store) (toDelete : NodeId) : Store :=
  setFeats s "connection_node"
    ((getFeats s "connection_node").filter
      (fun f => decide (¬ getFieldD f "id" = toDelete)))

def delChanStore (s : Store) (channelId : Nat) : Store :=
  setFeats s "channel"
    ((getFeats s "channel").filter (fun f => decide (¬ f.fid = channelId)))

def deleteFinalize (st1 : SCDState) (channelId : Nat) (toDelete replacement : NodeId) :
    SCDState :=
  { st1 with
    store := delChanStore (delNodeStore (delCslStore st1.store channelId) toDelete) channelId
    replacedNodes := chainInsert st1.replacedNodes toDelete replacement
    referenceDict := eraseKey st1.referenceDict channelId }

/-- The merge body of `delete_channel` (lines 132-167): repoint every feature
referencing the node to delete (across all tracked layers), then finalize the
deletions. -/
def delete_channel_core (st : SCDState) (channelId : Nat)
    (toDelete replacement : NodeId) : Except String SCDState :=
  match foldE (repointStep toDelete replacement) st
      (get_referencing_features st.indices channelId toDelete ALL_OBJECTS) with
  | .error e => .error e
  | .ok st1 => .ok (deleteFinalize st1 channelId toDelete replacement)

/-- `ShortChannelDeleter.delete_channel` (lines 107-167): look up the recorded
references (a missing record raises `RuntimeError`), skip when the connectivity
guard fires, pick the endpoint with the smaller (or equal) reference count as
the node to delete, resolve the survivor through the replacement chain, and run
the merge body. -/
def delete_channel (st : SCDState) (channel : FeatHandle) : Except String SCDState :=
  match lookupAssoc st.referenceDict channel.feat.fid with
  | none =>
    .error ("Channel with ID " ++ toString channel.feat.fid ++
      " is not a short channel or is not connected to anything else")
  | some refs =>
    if guardHit refs then .ok st
    else
      delete_channel_core st channel.feat.fid
        (if refs.startRefs.length > refs.endRefs.length
          then getFieldD channel.feat "connection_node_id_end"
          else getFieldD channel.feat "connection_node_id_start")
        (replaced_connection_node_id st.replacedNodes
          (if refs.startRefs.length > refs.endRefs.length
            then getFieldD channel.feat "connection_node_id_start"
            else getFieldD channel.feat "connection_node_id_end"))

/-- `channel["connection_node_id_start"] == channel["connection_node_id_end"]`. -/
def isZeroLength (c : Feature) : Bool :=
  decide (getFieldD c "connection_node_id_start" = getFieldD c "connection_node_id_end")

/-- One iteration of the loop of `delete_zero_length_channels` (lines 249-271):
delete the channel's cross-section locations and the channel, and remove the
channel's entries from the bucket of its (shared) connection node in the
channel-layer index (`index[connection_node_id]` raises `KeyError` when the
bucket is missing). -/
def zeroStep (p : SCDState × List Nat) (channel : Feature) :
    Except String (SCDState × List Nat) :=
  if isZeroLength channel then
    match lookupAssoc ((lookupAssoc p.1.indices "channel").getD [])
        (getFieldD channel "connection_node_id_start") with
    | none =>
      .error ("KeyError: " ++ toString (getFieldD channel "connection_node_id_start"))
    | some bucket =>
      .ok ({ p.1 with
             store := delChanStore (delCslStore p.1.store channel.fid) channel.fid
             indices := updAssoc p.1.indices "channel"
               (if bucket.filter (fun e => decide (¬ e.2.feat.fid = channel.fid)) = []
                then eraseKey ((lookupAssoc p.1.indices "channel").getD [])
                  (getFieldD channel "connection_node_id_start")
                else updAssoc ((lookupAssoc p.1.indices "channel").getD [])
                  (getFieldD channel "connection_node_id_start")
                  (bucket.filter (fun e => decide (¬ e.2.feat.fid = channel.fid)))) },
        p.2 ++ [channel.fid])
  else .ok p

/-- Python truthiness of the optional `channel_ids` argument (an empty list is
falsy, so it behaves like no restriction). -/
def idsTruthy : Option (List Nat) → Bool
  | none => false
  | some l => decide (¬ l = [])

/-- `ShortChannelDeleter.delete_zero_length_channels` (lines 241-274).  The
`id in (...)` attribute filter restricts to the requested identifiers; the loop
runs over a snapshot of the (filtered) channel layer, and at the end the
deleted FIDs are dropped from `self.short_channels`. -/
def delete_zero_length_channels (st : SCDState) (channelIds : Option (List Nat)) :
    Except String SCDState :=
  let chans := getFeats st.store "channel"
  let chans := if idsTruthy channelIds then
      chans.filter (fun c => memB (getFieldD c "id") ((channelIds.getD []).map Int.ofNat))
    else chans
  match foldE zeroStep (st, []) chans with
  | .error e => .error e
  | .ok r =>
    .ok { r.1 with
          shortChannels := r.1.shortChannels.filter (fun h => ! memB h.feat.fid r.2) }

/-- The x/y of a geometry's first point, as a 2D vertex
(`geom.GetPoint_2D()` then `AddPoint(x, y)` makes a 2D point). -/
def firstPt2D (g : Geom) : Pt :=
  let p := g.pts.headD ⟨0, 0, 0⟩
  ⟨p.x, p.y, 0⟩

/-- The pump/connection-node geometry dictionaries of
`update_pump_map_geometries` (lines 284-296), keyed by FID. -/
def buildGeomDict (feats : List Feature) : List (Int × Geom) :=
  feats.foldl (fun d f => updAssoc d (Int.ofNat f.fid) f.geom) []

/-- The per-feature update of `update_pump_map_geometries` (lines 299-312):
rebuild the geometry as the two-point 2D line from the referenced pump's
location to the referenced connection node's location; a feature whose pump or
node is missing from the dictionaries is left untouched. -/
def pumpMapFn (pumpDict connDict : List (Int × Geom)) (f : Feature) : Feature :=
  match lookupAssoc pumpDict (getFieldD f "pump_id"),
      lookupAssoc connDict (getFieldD f "connection_node_id_end") with
  | some pg, some cg => { f with geom := ⟨false, [firstPt2D pg, firstPt2D cg]⟩ }
  | _, _ => f

/-- The store-level effect of `update_pump_map_geometries` (lines 276-312). -/
def storePumpUpd (s : Store) : Store :=
  setFeats s "pump_map" ((getFeats s "pump_map").map
    (pumpMapFn (buildGeomDict (getFeats s "pump"))
      (buildGeomDict (getFeats s "connection_node"))))

/-- `ShortChannelDeleter.update_pump_map_geometries` (lines 276-312): rebuild
every pump_map geometry from the current pump and connection-node locations.
`_reconnect` reopens the same geopackage and does not change the persisted
store. -/
def update_pump_map_geometries (st : SCDState) : SCDState :=
  { st with store := storePumpUpd st.store }

/-- `ShortChannelDeleter.__init__` (lines 28-36): select the channels shorter
than the threshold, build the per-layer reverse indices, record the reference
lists for the short channels, and start with an empty replacement chain.
`lenG` is the external OGR geometry-length computation. -/
def initState (lenG : Geom → Int) (store : Store) (threshold : Int) : SCDState :=
  let shorts := ((getFeats store "channel").filter
      (fun c => decide (lenG c.geom < threshold))).map
      (fun c => (⟨"channel", c⟩ : FeatHandle))
  let idxs := ALL_OBJECTS.map (fun n => (n, create_index (getLayerD store n)))
  update_reference_dict ⟨store, shorts, idxs, [], []⟩ shorts

/-- The phase-2 loop of `ShortChannelDeleter.run` (lines 316-321): process each
tracked short channel, restricted to the requested identifiers when given. -/
def phaseTwo (st : SCDState) (channelIds : Option (List Nat)) :
    Except String SCDState :=
  foldE (fun s ch =>
    if idsTruthy channelIds then
      if memB ch.feat.fid (channelIds.getD []) then delete_channel s ch else .ok s
    else delete_channel s ch) st st.shortChannels

/-- `ShortChannelDeleter.run` (lines 314-322): phase 1 (zero-length removal),
then phase 2 (short-channel merges), then phase 3 (pump_map geometry refresh). -/
def runDeleter (st : SCDState) (channelIds : Option (List Nat)) :
    Except String SCDState :=
  match delete_zero_length_channels st channelIds with
  | .error e => .error e
  | .ok s1 =>
    match phaseTwo s1 channelIds with
    | .error e => .error e
    | .ok s2 => .ok (update_pump_map_geometries s2)

/-- A whole compactor run on a store: construct the deleter and call `run()`. -/
def runOnStore (lenG : Geom → Int) (threshold : Int) (store : Store) :
    Except String Store :=
  (runDeleter (initState lenG store threshold) none).map SCDState.store

/-- Absolute value, spelled out so that it evaluates by kernel reduction. -/
def intAbs (x : Int) : Int := if x < 0 then -x else x

/-- Exact length of one polyline segment when it is axis-aligned (horizontal or
vertical): it then equals the Euclidean segment length. -/
def segLen (p q : Pt) : Int := intAbs (q.x - p.x) + intAbs (q.y - p.y)

/-- Exact polyline length for axis-aligned polylines.  Every geometry appearing
in the concrete stores below keeps all segments axis-aligned throughout the
runs considered, so this instantiation of `lenG` agrees with OGR's Euclidean
`Length()` on them. -/
def axisLen (g : Geom) : Int :=
  (g.pts.zip g.pts.tail).foldl (fun a pq => a + segLen pq.1 pq.2) 0

/-- A two-dimensional point geometry. -/
def pointG (x y : Int) : Geom := ⟨false, [⟨x, y, 0⟩]⟩

/-- A two-dimensional line geometry through the given vertices. -/
def lineG (ps : List (Int × Int)) : Geom := ⟨false, ps.map (fun q => ⟨q.1, q.2, 0⟩)⟩

/-- A channel feature with the given endpoints (its `id` attribute equals its
FID, as in the geopackages this tool edits). -/
def chanFeat (fid : Nat) (s e : NodeId) (g : Geom) : Feature :=
  ⟨fid, [("id", Int.ofNat fid), ("connection_node_id_start", s),
    ("connection_node_id_end", e)], g⟩

/-- A connection-node feature (FID equal to its `id` attribute). -/
def nodeFeat (fid : Nat) (x y : Int) : Feature :=
  ⟨fid, [("id", Int.ofNat fid)], pointG x y⟩

/-- A cross-section location keyed to a channel. -/
def cslFeat (fid : Nat) (channelId : Int) : Feature :=
  ⟨fid, [("id", Int.ofNat fid), ("channel_id", channelId)], pointG 0 0⟩

/-- A store with the twelve layers the code touches, carrying the 3Di schema of
each, and the given features. -/
def mkStore (channels nodes csl laterals pumps pumpMaps : List Feature) : Store := [
  ⟨"channel", ["id", "connection_node_id_start", "connection_node_id_end"], channels⟩,
  ⟨"culvert", ["id", "connection_node_id_start", "connection_node_id_end"], []⟩,
  ⟨"orifice", ["id", "connection_node_id_start", "connection_node_id_end"], []⟩,
  ⟨"pipe", ["id", "connection_node_id_start", "connection_node_id_end"], []⟩,
  ⟨"pump_map", ["id", "pump_id", "connection_node_id_end"], pumpMaps⟩,
  ⟨"weir", ["id", "connection_node_id_start", "connection_node_id_end"], []⟩,
  ⟨"surface_map", ["id", "connection_node_id"], []⟩,
  ⟨"boundary_condition_1d", ["id", "connection_node_id"], []⟩,
  ⟨"lateral_1d", ["id", "connection_node_id"], laterals⟩,
  ⟨"pump", ["id", "connection_node_id"], pumps⟩,
  ⟨"connection_node", ["id"], nodes⟩,
  ⟨"cross_section_location", ["id", "channel_id"], csl⟩]

/-- Store refuting idempotence of the compactor (threshold 5): channel 2
(length 4) is short; merging it deletes node 2 and repoints channel 1's end
vertex from (6,0) to (2,0), shrinking channel 1 to length 2 — under the
threshold — so a second run deletes channel 1 as well. -/
def cex5Store : Store := mkStore
  [chanFeat 1 1 2 (lineG [(0, 0), (6, 0)]),
   chanFeat 2 2 3 (lineG [(6, 0), (2, 0)]),
   chanFeat 3 3 4 (lineG [(2, 0), (2, 7)])]
  [nodeFeat 1 0 0, nodeFeat 2 6 0, nodeFeat 3 2 0, nodeFeat 4 2 7]
  [] [] [] []

/-- Store for the index-update failing input of `replace_connection_node`:
channels 1 and 2 both reference node 1 through `connection_node_id_start`. -/
def cexC1Store : Store := mkStore
  [chanFeat 1 1 3 (lineG [(0, 0), (5, 0)]),
   chanFeat 2 1 4 (lineG [(0, 0), (0, 5)])]
  [nodeFeat 1 0 0, nodeFeat 2 1 1, nodeFeat 3 5 0, nodeFeat 4 0 5]
  [] [] [] []

/-- Store with a short channel (1) in parallel with another channel (2) joining
the same two nodes, so the connectivity guard fires. -/
def cex3Store : Store := mkStore
  [chanFeat 1 1 2 (lineG [(0, 0), (2, 0)]),
   chanFeat 2 1 2 (lineG [(0, 0), (0, 9), (2, 9), (2, 0)])]
  [nodeFeat 1 0 0, nodeFeat 2 2 0]
  [] [] [] []

/-- Store with a zero-length channel (1, both endpoints node 5) carrying one
cross-section location, next to an ordinary channel (2). -/
def cex6Store : Store := mkStore
  [chanFeat 1 5 5 (lineG [(3, 3), (3, 3)]),
   chanFeat 2 5 6 (lineG [(3, 3), (9, 3)])]
  [nodeFeat 5 3 3, nodeFeat 6 9 3]
  [cslFeat 1 1, cslFeat 2 2]
  [] [] []

/-- A lateral whose `connection_node_id` is 7, though the cooked index below
records it as a referrer of node 1. -/
def latC8 : Feature := ⟨5, [("id", 5), ("connection_node_id", 7)], pointG 3 3⟩

def chanC8 : Feature := chanFeat 1 1 2 (lineG [(0, 0), (5, 0)])

def storeC8 : Store := mkStore [chanC8] [nodeFeat 1 0 0, nodeFeat 2 5 0] [] [latC8] [] []

/-- A deleter state whose reverse index is inconsistent with the store: the
lateral-layer bucket of node 1 lists `latC8`, whose `connection_node_id` is 7.
During the merge of channel 1 the repoint of the lateral then matches no
expected role, so the `RuntimeError` of `replace_connection_node` fires and
propagates out of `run`. -/
def stC8 : SCDState :=
  ⟨storeC8, [⟨"channel", chanC8⟩],
   [("lateral_1d", [(1, [("connection_node_id", ⟨"lateral_1d", latC8⟩)])])],
   [(1, ⟨[], []⟩)], []⟩

/-- Store for the pump_map refresh: pump_map 1 references pump 1 and node 2;
pump_map 2 references a missing pump (9). -/
def cexC10Store : Store := mkStore
  []
  [nodeFeat 2 4 4]
  []
  []
  [⟨1, [("id", 1), ("connection_node_id", 2)], pointG 0 0⟩]
  [⟨1, [("id", 1), ("pump_id", 1), ("connection_node_id_end", 2)], lineG [(9, 9), (8, 8)]⟩,
   ⟨2, [("id", 2), ("pump_id", 9), ("connection_node_id_end", 2)], lineG [(1, 1), (2, 2)]⟩]

/-- The deleter constructed on `cex5Store` with threshold 5. -/
def cex5State : SCDState := initState axisLen cex5Store 5

/-- The handle of short channel 2 of `cex5Store`, as `run` iterates it. -/
def cex5Chan : FeatHandle := ⟨"channel", chanFeat 2 2 3 (lineG [(6, 0), (2, 0)])⟩

/-- The reference record of channel 2 of `cex5Store`. -/
def cex5Refs : RefPair := (lookupAssoc cex5State.referenceDict 2).getD ⟨[], []⟩

/-- The state after `delete_channel` merges channel 2 of `cex5Store`. -/
def cex5After : SCDState :=
  match delete_channel cex5State cex5Chan with
  | .ok s => s
  | .error _ => cex5State

/-- The store after the first compactor run on `cex5Store`. -/
def cex5Run1 : Store := (runOnStore axisLen 5 cex5Store).toOption.getD []

/-- The store after the second compactor run on the first run's output. -/
def cex5Run2 : Store := (runOnStore axisLen 5 cex5Run1).toOption.getD []

/-- The deleter constructed on `cexC1Store` (threshold 0, so no channel is
tracked as short; only the reverse indices matter here). -/
def cexC1State : SCDState := initState axisLen cexC1Store 0

/-- The state after repointing channel 1's start reference from node 1 to
node 2 on `cexC1State`. -/
def cexC1After : SCDState :=
  match replace_connection_node cexC1State "channel" 1 1 2 with
  | .ok s => s
  | .error _ => cexC1State

/-- The deleter constructed on `cex3Store` with threshold 5. -/
def cex3State : SCDState := initState axisLen cex3Store 5

/-- The handle of short channel 1 of `cex3Store`. -/
def cex3Chan : FeatHandle := ⟨"channel", chanFeat 1 1 2 (lineG [(0, 0), (2, 0)])⟩

/-- The reference record of channel 1 of `cex3Store`. -/
def cex3Refs : RefPair := (lookupAssoc cex3State.referenceDict 1).getD ⟨[], []⟩

/-- A handle for a channel identifier (99) that never existed in `cex5Store`. -/
def bogusChan : FeatHandle := ⟨"channel", chanFeat 99 8 9 (lineG [(0, 0), (1, 0)])⟩

/-- The FIDs of the zero-length channels of a channel list, in order. -/
def zeroFids (chs : List Feature) : List Nat := (chs.filter isZeroLength).map Feature.fid

/-- Membership of an entry in the bucket of a node of a reverse index. -/
def entryIn (idx : IndexT) (nid : NodeId) (e : String × FeatHandle) : Prop :=
  ∃ b, lookupAssoc idx nid = some b ∧ e ∈ b

/-- The deleter constructed on `cex6Store` (threshold 0). -/
def cex6State : SCDState := initState axisLen cex6Store 0

/-- The state after phase 1 on `cex6State`. -/
def cex6After : SCDState :=
  match delete_zero_length_channels cex6State none with
  | .ok s => s
  | .error _ => cex6State

/-- The store after a full compactor run (threshold 0) on `cex6Store`. -/
def cex6Run1 : Store := (runOnStore axisLen 0 cex6Store).toOption.getD []

/-- Store on which a full run records a self-loop in the replacement chain.
Channels (all short, threshold 5): 1: 3→1, 2: 41→2, 3: 42→2, 4: 2→3, 5: 2→1;
ten culverts stuff the node buckets (two at node 1, two at node 3, three at
node 41, three at node 42).  The run merges the channels in FID order: merging
channel 1 inserts 3 ↦ 1, channels 2 and 3 insert 41 ↦ 2 and 42 ↦ 2 while their
culverts migrate into node 2's buckets, and merging channel 4 deletes node 2
(inserting 2 ↦ 1).  Channel 5's recorded reference lists — refreshed mid-merge
from index buckets stuffed with the migrated culverts and with dangling entries
of already-deleted channels — then make node 2's side the strictly larger one,
so merging channel 5 deletes its end node 1 and records 1 ↦
`replaced_connection_node_id`(2) = 1: the self-loop 1 ↦ 1. -/
def cexC4Store : Store :=
  setFeats (mkStore
    [chanFeat 1 3 1 (lineG [(0, 0), (4, 0)]),
     chanFeat 2 41 2 (lineG [(0, 0), (4, 0)]),
     chanFeat 3 42 2 (lineG [(0, 0), (4, 0)]),
     chanFeat 4 2 3 (lineG [(0, 0), (4, 0)]),
     chanFeat 5 2 1 (lineG [(0, 0), (4, 0)])]
    [nodeFeat 1 0 0, nodeFeat 2 10 0, nodeFeat 3 20 0,
     nodeFeat 41 30 0, nodeFeat 42 40 0]
    [] [] [] []) "culvert"
    [chanFeat 11 901 1 (lineG [(0, 0), (1, 0)]),
     chanFeat 12 902 1 (lineG [(0, 0), (1, 0)]),
     chanFeat 13 903 3 (lineG [(0, 0), (1, 0)]),
     chanFeat 14 904 3 (lineG [(0, 0), (1, 0)]),
     chanFeat 15 905 41 (lineG [(0, 0), (1, 0)]),
     chanFeat 16 906 41 (lineG [(0, 0), (1, 0)]),
     chanFeat 17 907 41 (lineG [(0, 0), (1, 0)]),
     chanFeat 18 908 42 (lineG [(0, 0), (1, 0)]),
     chanFeat 19 909 42 (lineG [(0, 0), (1, 0)]),
     chanFeat 20 910 42 (lineG [(0, 0), (1, 0)])]

/-- The replacement chain a full run on `cexC4Store` ends with: it maps node 1
to itself. -/
def cexC4Chain : List (NodeId × NodeId) :=
  [(1, 1), (2, 1), (42, 2), (41, 2), (3, 1)]

theorem memB_eq_true {α : Type} [DecidableEq α] (y : α) (l : List α) :
    memB y l = true ↔ y ∈ l := by
  simp [memB, List.any_eq_true]

/-- C4: refuted — the replacement chain reachable during a run can contain a
cycle.  A full run on `cexC4Store` completes, deletes every connection node
(so node 1 is not live), and leaves the replacement chain `cexC4Chain`, which
binds 1 ↦ 1: resolving identifier 1 yields 1 again no matter how many lookup
steps are granted, so the resolved identifier is itself still recorded as
replaced and the source's unbounded `while current_id in chain` loop in
`replaced_connection_node_id` never exits on it. -/
theorem replacement_chain_self_loop :
    (runDeleter (initState axisLen cexC4Store 5) none).map SCDState.replacedNodes =
      .ok cexC4Chain ∧
    (runDeleter (initState axisLen cexC4Store 5) none).map
      (fun s => (getFeats s.store "connection_node").map (fun f => getFieldD f "id")) =
      .ok [] ∧
    lookupAssoc cexC4Chain 1 = some 1 ∧
    ∀ m, resolveF cexC4Chain m 1 = 1 := by
  refine ⟨by decide, by decide, by decide, ?_⟩
  intro m
  induction m with
  | zero => rfl
  | succ n ih =>
    show (match lookupAssoc cexC4Chain (1 : NodeId) with
      | none => (1 : NodeId)
      | some v => resolveF cexC4Chain n v) = (1 : NodeId)
    rw [show lookupAssoc cexC4Chain (1 : NodeId) = some 1 from by decide]
    exact ih

/-- C9: `move_vertex_in_geometry` replaces exactly one vertex — the first for
the `"first"` role (single/start fields), the last otherwise — with the new
vertex's x/y, leaves every other vertex unchanged, and keeps a third coordinate
only if the target geometry was already three-dimensional (taking the vertex's
z when it has one, else 0); two-dimensional targets stay two-dimensional.  The
final conjunct records that `replace_connection_node`'s role decision maps the
single/start fields to `"first"` and the end field to `"last"`. -/
theorem move_vertex_replaces_one_endpoint (g v : Geom) (fl : String)
    (hne : ¬ g.pts = []) :
    (move_vertex_in_geometry g v fl).is3D = g.is3D ∧
    (move_vertex_in_geometry g v fl).pts.length = g.pts.length ∧
    (move_vertex_in_geometry g v fl).pts[if fl = "first" then 0 else g.pts.length - 1]? =
      some (if g.is3D then
        ⟨(v.pts.headD ⟨0, 0, 0⟩).x, (v.pts.headD ⟨0, 0, 0⟩).y,
          if v.is3D then (v.pts.headD ⟨0, 0, 0⟩).z else 0⟩
      else ⟨(v.pts.headD ⟨0, 0, 0⟩).x, (v.pts.headD ⟨0, 0, 0⟩).y, 0⟩) ∧
    (∀ j, ¬ j = (if fl = "first" then 0 else g.pts.length - 1) →
      (move_vertex_in_geometry g v fl).pts[j]? = g.pts[j]?) ∧
    (∀ (fns : List String) (feat : Feature) (dId : NodeId) (fld s : String),
      decideRole fns feat dId = .ok (fld, s) →
      (s = "first" ∧ (fld = "connection_node_id" ∨ fld = "connection_node_id_start")) ∨
      (s = "last" ∧ fld = "connection_node_id_end")) := by
  have hlen : 0 < g.pts.length := List.length_pos.mpr hne
  have hidx : (if fl = "first" then 0 else g.pts.length - 1) < g.pts.length := by
    by_cases hf : fl = "first" <;> simp [hf] <;> omega
  have hrole : ∀ (fns : List String) (feat : Feature) (dId : NodeId) (fld s : String),
      decideRole fns feat dId = .ok (fld, s) →
      (s = "first" ∧ (fld = "connection_node_id" ∨ fld = "connection_node_id_start")) ∨
      (s = "last" ∧ fld = "connection_node_id_end") := by
    intro fns feat dId fld s h
    unfold decideRole at h
    by_cases h1 : memB "connection_node_id" fns = true
    · rw [if_pos h1] at h
      by_cases h2 : getFieldD feat "connection_node_id" = dId
      · rw [if_pos h2] at h
        cases h
        exact Or.inl ⟨rfl, Or.inl rfl⟩
      · rw [if_neg h2] at h
        cases h
    · rw [if_neg h1] at h
      by_cases h3 : getFieldD feat "connection_node_id_start" = dId
      · rw [if_pos h3] at h
        cases h
        exact Or.inl ⟨rfl, Or.inr rfl⟩
      · rw [if_neg h3] at h
        by_cases h4 : getFieldD feat "connection_node_id_end" = dId
        · rw [if_pos h4] at h
          cases h
          exact Or.inr ⟨rfl, rfl⟩
        · rw [if_neg h4] at h
          cases h
  refine ⟨?_, ?_, ?_, ?_, hrole⟩
  · unfold move_vertex_in_geometry
    by_cases h : g.is3D = true <;> simp [h]
  · unfold move_vertex_in_geometry
    by_cases h : g.is3D = true <;> simp [h]
  · unfold move_vertex_in_geometry
    by_cases h : g.is3D = true <;> simp [h, List.getElem?_set_self hidx]
  · intro j hj
    unfold move_vertex_in_geometry
    by_cases h : g.is3D = true <;>
      simp [h, List.getElem?_set_ne (fun hc => hj hc.symm)]

theorem move_vertex_replaces_one_endpoint_witness :
    (move_vertex_in_geometry ⟨true, [⟨0, 0, 1⟩, ⟨5, 5, 2⟩]⟩ ⟨false, [⟨7, 8, 0⟩]⟩
        "last").is3D = (⟨true, [⟨0, 0, 1⟩, ⟨5, 5, 2⟩]⟩ : Geom).is3D ∧
    (move_vertex_in_geometry ⟨true, [⟨0, 0, 1⟩, ⟨5, 5, 2⟩]⟩ ⟨false, [⟨7, 8, 0⟩]⟩
        "last").pts.length = (⟨true, [⟨0, 0, 1⟩, ⟨5, 5, 2⟩]⟩ : Geom).pts.length ∧
    (move_vertex_in_geometry ⟨true, [⟨0, 0, 1⟩, ⟨5, 5, 2⟩]⟩ ⟨false, [⟨7, 8, 0⟩]⟩
        "last").pts[if ("last" : String) = "first" then 0
          else (⟨true, [⟨0, 0, 1⟩, ⟨5, 5, 2⟩]⟩ : Geom).pts.length - 1]? =
      some (if (⟨true, [⟨0, 0, 1⟩, ⟨5, 5, 2⟩]⟩ : Geom).is3D then
        ⟨((⟨false, [⟨7, 8, 0⟩]⟩ : Geom).pts.headD ⟨0, 0, 0⟩).x,
          ((⟨false, [⟨7, 8, 0⟩]⟩ : Geom).pts.headD ⟨0, 0, 0⟩).y,
          if (⟨false, [⟨7, 8, 0⟩]⟩ : Geom).is3D then
            ((⟨false, [⟨7, 8, 0⟩]⟩ : Geom).pts.headD ⟨0, 0, 0⟩).z else 0⟩
      else ⟨((⟨false, [⟨7, 8, 0⟩]⟩ : Geom).pts.headD ⟨0, 0, 0⟩).x,
        ((⟨false, [⟨7, 8, 0⟩]⟩ : Geom).pts.headD ⟨0, 0, 0⟩).y, 0⟩) ∧
    (∀ j, ¬ j = (if ("last" : String) = "first" then 0
        else (⟨true, [⟨0, 0, 1⟩, ⟨5, 5, 2⟩]⟩ : Geom).pts.length - 1) →
      (move_vertex_in_geometry ⟨true, [⟨0, 0, 1⟩, ⟨5, 5, 2⟩]⟩ ⟨false, [⟨7, 8, 0⟩]⟩
        "last").pts[j]? = (⟨true, [⟨0, 0, 1⟩, ⟨5, 5, 2⟩]⟩ : Geom).pts[j]?) ∧
    (∀ (fns : List String) (feat : Feature) (dId : NodeId) (fld s : String),
      decideRole fns feat dId = .ok (fld, s) →
      (s = "first" ∧ (fld = "connection_node_id" ∨ fld = "connection_node_id_start")) ∨
      (s = "last" ∧ fld = "connection_node_id_end")) :=
  move_vertex_replaces_one_endpoint ⟨true, [⟨0, 0, 1⟩, ⟨5, 5, 2⟩]⟩ ⟨false, [⟨7, 8, 0⟩]⟩
    "last" (by decide)

/-- C3: when some feature handle occurs in both recorded reference lists of a
short channel (the lists exclude the channel itself by construction of
`get_referencing_features`), `delete_channel` performs no merge: it returns
with the deleter state — and thus the store — entirely unchanged. -/
theorem guard_skips_merge (st : SCDState) (ch : FeatHandle) (refs : RefPair)
    (href : lookupAssoc st.referenceDict ch.feat.fid = some refs)
    (hsh : ∃ h : FeatHandle,
      h ∈ refs.startRefs.map (fun e => e.2.2) ∧ h ∈ refs.endRefs.map (fun e => e.2.2)) :
    delete_channel st ch = .ok st := by
  have hguard : guardHit refs = true := by
    obtain ⟨hh, hs, he⟩ := hsh
    obtain ⟨e, hes, heq⟩ := List.mem_map.mp hs
    unfold guardHit
    rw [List.any_eq_true]
    exact ⟨e, hes, by rw [heq]; exact (memB_eq_true _ _).mpr he⟩
  simp only [delete_channel]
  rw [href]
  simp [hguard]

theorem guard_skips_merge_witness :
    delete_channel cex3State cex3Chan = .ok cex3State :=
  guard_skips_merge cex3State cex3Chan cex3Refs (by decide)
    ⟨⟨"channel", chanFeat 2 1 2 (lineG [(0, 0), (0, 9), (2, 9), (2, 0)])⟩,
      by decide, by decide⟩

/-- C7 (amended): a direct `delete_channel` call on a channel identifier with
no recorded reference entry — one that is not a tracked short channel — raises
the `RuntimeError` of lines 113-116.  (`run` with explicit `channel_ids`, by
contrast, silently skips untracked identifiers; see the counterexample.) -/
theorem untracked_channel_raises (st : SCDState) (ch : FeatHandle)
    (h : lookupAssoc st.referenceDict ch.feat.fid = none) :
    delete_channel st ch = .error ("Channel with ID " ++ toString ch.feat.fid ++
      " is not a short channel or is not connected to anything else") := by
  simp only [delete_channel]
  rw [h]

theorem untracked_channel_raises_witness :
    delete_channel cex5State bogusChan = .error ("Channel with ID " ++
      toString bogusChan.feat.fid ++
      " is not a short channel or is not connected to anything else") :=
  untracked_channel_raises cex5State bogusChan (by decide)

/-- C7 (counterexample): requesting the processing of channel identifier 99 —
which is not a tracked short or zero-length channel of `cex5Store` — through
`run(channel_ids=[99])` surfaces no error at all and leaves the store
untouched: the identifier is silently ignored, because phase 1 merely filters
on the requested ids and phase 2 only visits tracked short channels. -/
theorem run_ignores_untracked_id :
    (runDeleter (initState axisLen cex5Store 5) (some [99])).map SCDState.store =
      .ok cex5Store := by decide

/-- C8: during a repoint, a feature whose node-reference fields match no
expected role raises `RuntimeError` instead of guessing which field to update:
when the layer has a `connection_node_id` field whose value differs from the
deleted identifier, or when it has start/end fields and neither matches.  The
final conjunct shows the error is fatal for the run: on a state whose index
wrongly lists `latC8` (referencing node 7) as a referrer of node 1, `run`
propagates exactly this error to its caller. -/
theorem repoint_role_mismatch_raises :
    (∀ (st : SCDState) (layerName : String) (fid : Nat) (dId rId : NodeId)
      (feat : Feature),
      (getLayerD st.store layerName).feats.find? (fun f => decide (f.fid = fid)) =
        some feat →
      memB "connection_node_id" (getLayerD st.store layerName).fieldNames = true →
      ¬ getFieldD feat "connection_node_id" = dId →
      replace_connection_node st layerName fid dId rId =
        .error ("This feature's connection_node_id != delete_id (" ++
          toString dId ++ ")")) ∧
    (∀ (st : SCDState) (layerName : String) (fid : Nat) (dId rId : NodeId)
      (feat : Feature),
      (getLayerD st.store layerName).feats.find? (fun f => decide (f.fid = fid)) =
        some feat →
      memB "connection_node_id" (getLayerD st.store layerName).fieldNames = false →
      ¬ getFieldD feat "connection_node_id_start" = dId →
      ¬ getFieldD feat "connection_node_id_end" = dId →
      replace_connection_node st layerName fid dId rId =
        .error ("This feature's connection_node_id_start and connection_node_id_end are not delete_id ("
          ++ toString dId ++ ")")) ∧
    runDeleter stC8 none =
      .error ("This feature's connection_node_id != delete_id (" ++
        toString (1 : Int) ++ ")") := by
  refine ⟨?_, ?_, by decide⟩
  · intro st layerName fid dId rId feat hfind hmem hne
    simp only [replace_connection_node]
    rw [hfind]
    simp only [decideRole, hmem, if_true, if_neg hne]
  · intro st layerName fid dId rId feat hfind hmem hs he
    simp only [replace_connection_node]
    rw [hfind]
    simp only [decideRole, hmem, Bool.false_eq_true, if_false, if_neg hs, if_neg he]

theorem repoint_role_mismatch_raises_witness :
    replace_connection_node stC8 "lateral_1d" 5 1 2 =
      .error ("This feature's connection_node_id != delete_id (" ++
        toString (1 : Int) ++ ")") :=
  repoint_role_mismatch_raises.1 stC8 "lateral_1d" 5 1 2 latC8
    (by decide) (by decide) (by decide)

/-- C1 (failing input): on `cexC1Store`, channels 1 and 2 both reference
node 1 via `connection_node_id_start`.  Repointing only channel 1 to node 2
moves channel 2's index entry along with it: node 2's bucket now holds both
start entries, node 1's bucket is gone, yet the store still records channel 2
as referencing node 1 — so the index no longer equals the brute-force rebuild
from the layer, contradicting the per-feature update and index-fidelity claim. -/
theorem index_update_moves_unrelated_entry :
    replace_connection_node cexC1State "channel" 1 1 2 = .ok cexC1After ∧
    ("connection_node_id_start",
      (⟨"channel", chanFeat 2 1 4 (lineG [(0, 0), (0, 5)])⟩ : FeatHandle)) ∈
      ((lookupAssoc ((lookupAssoc cexC1After.indices "channel").getD []) 2).getD []) ∧
    lookupAssoc ((lookupAssoc cexC1After.indices "channel").getD []) 1 = none ∧
    getFieldD (((getFeats cexC1After.store "channel").find?
      (fun f => decide (f.fid = 2))).getD chanC8) "connection_node_id_start" = 1 ∧
    ¬ (lookupAssoc cexC1After.indices "channel").getD [] =
      create_index (getLayerD cexC1After.store "channel") := by
  refine ⟨by decide, by decide, by decide, by decide, by decide⟩

theorem find?_setFeats (s : Store) (n m : String) (fs : List Feature) :
    (setFeats s n fs).find? (fun l => decide (l.name = m)) =
      (s.find? (fun l => decide (l.name = m))).map
        (fun l => if l.name = n then { l with feats := fs } else l) := by
  unfold setFeats
  rw [List.find?_map]
  have hp : ((fun l : LayerT => decide (l.name = m)) ∘
      (fun l => if l.name = n then { l with feats := fs } else l)) =
      (fun l : LayerT => decide (l.name = m)) := by
    funext l
    by_cases hn : l.name = n <;> simp [Function.comp, hn]
  rw [hp]

theorem getFeats_setFeats_ne (s : Store) (n m : String) (fs : List Feature)
    (h : ¬ m = n) : getFeats (setFeats s n fs) m = getFeats s m := by
  unfold getFeats getLayerD
  rw [find?_setFeats]
  cases hf : s.find? (fun l => decide (l.name = m)) with
  | none => rfl
  | some l =>
    have hname : l.name = m := by simpa using List.find?_some hf
    have hln : ¬ l.name = n := fun hc => h (hname.symm.trans hc)
    simp [hln]

theorem getFeats_setFeats_self (s : Store) (n : String) (fs : List Feature) :
    getFeats (setFeats s n fs) n =
      match s.find? (fun l => decide (l.name = n)) with
      | some _ => fs
      | none => getFeats s n := by
  unfold getFeats getLayerD
  rw [find?_setFeats]
  cases hf : s.find? (fun l => decide (l.name = n)) with
  | none => rfl
  | some l =>
    have hname : l.name = n := by simpa using List.find?_some hf
    simp [hname]

theorem getFeats_setFeats_apply (s : Store) (n : String)
    (fn : List Feature → List Feature) (hfn : fn [] = []) :
    getFeats (setFeats s n (fn (getFeats s n))) n = fn (getFeats s n) := by
  rw [getFeats_setFeats_self]
  cases hf : s.find? (fun l => decide (l.name = n)) with
  | none =>
    have hnil : getFeats s n = [] := by
      unfold getFeats getLayerD
      rw [hf]
      rfl
    rw [hnil, hfn]
  | some l => rfl

theorem setFeats_setFeats (s : Store) (n : String) (a b : List Feature) :
    setFeats (setFeats s n a) n b = setFeats s n b := by
  unfold setFeats
  rw [List.map_map]
  congr 1
  funext l
  by_cases hn : l.name = n <;> simp [Function.comp, hn]

theorem lookup_updAssoc {α β : Type} [DecidableEq α] (l : List (α × β)) (k k2 : α)
    (v : β) :
    lookupAssoc (updAssoc l k v) k2 = if k2 = k then some v else lookupAssoc l k2 := by
  induction l with
  | nil =>
    by_cases h2 : k2 = k <;> simp [updAssoc, lookupAssoc, h2]
  | cons p r ih =>
    obtain ⟨a, b⟩ := p
    by_cases ha : a = k
    · subst ha
      by_cases h2 : k2 = a <;> simp [updAssoc, lookupAssoc, h2]
    · have hka : ¬ k = a := fun hc => ha hc.symm
      by_cases h2 : k2 = a
      · subst h2
        simp [updAssoc, lookupAssoc, ha, fun hc : k2 = k => hka hc.symm]
      · simp [updAssoc, lookupAssoc, ha, h2, ih]

theorem lookup_eraseKey {α β : Type} [DecidableEq α] (l : List (α × β)) (k k2 : α) :
    lookupAssoc (eraseKey l k) k2 = if k2 = k then none else lookupAssoc l k2 := by
  induction l with
  | nil => simp [eraseKey, lookupAssoc]
  | cons p r ih =>
    obtain ⟨a, b⟩ := p
    unfold eraseKey at *
    by_cases ha : a = k
    · subst ha
      rw [List.filter_cons_of_neg (by simp)]
      rw [ih]
      by_cases h2 : k2 = a
      · simp [h2]
      · simp [lookupAssoc, h2]
    · rw [List.filter_cons_of_pos (by simpa using ha)]
      simp only [lookupAssoc]
      by_cases h2 : k2 = a
      · subst h2
        rw [if_pos rfl, if_neg (fun hc : k2 = k => ha hc), if_pos rfl]
      · rw [if_neg h2, ih, if_neg h2]

theorem replace_keeps (st : SCDState) (ln : String) (fid : Nat) (d r : NodeId)
    (st2 : SCDState) (hln : ¬ "connection_node" = ln)
    (h : replace_connection_node st ln fid d r = .ok st2) :
    getFeats st2.store "connection_node" = getFeats st.store "connection_node" ∧
    st2.replacedNodes = st.replacedNodes ∧
    st2.shortChannels = st.shortChannels := by
  unfold replace_connection_node at h
  split at h
  · split at h
    · cases h
      exact ⟨rfl, rfl, rfl⟩
    · cases h
  · split at h
    · cases h
    · split at h
      · cases h
      · split at h
        · cases h
          exact ⟨getFeats_setFeats_ne _ _ _ _ hln, rfl, rfl⟩
        · cases h
          exact ⟨getFeats_setFeats_ne _ _ _ _ hln, rfl, rfl⟩

theorem repointStep_keeps (td rp : NodeId) (s : SCDState) (e : RefEntry)
    (s2 : SCDState) (he : ¬ "connection_node" = e.1)
    (h : repointStep td rp s e = .ok s2) :
    getFeats s2.store "connection_node" = getFeats s.store "connection_node" ∧
    s2.replacedNodes = s.replacedNodes ∧
    s2.shortChannels = s.shortChannels := by
  unfold repointStep at h
  cases hr : replace_connection_node s e.1 e.2.2.feat.fid td rp with
  | error er =>
    rw [hr] at h
    cases h
  | ok s1 =>
    rw [hr] at h
    cases h
    have hk := replace_keeps s e.1 e.2.2.feat.fid td rp s1 he hr
    by_cases hc : e.1 = "channel"
    · rw [if_pos hc]
      exact ⟨hk.1, hk.2.1, hk.2.2⟩
    · rw [if_neg hc]
      exact hk

theorem foldRepoint_keeps (l : List RefEntry) (td rp : NodeId) :
    ∀ (s s2 : SCDState), (∀ e ∈ l, ¬ "connection_node" = e.1) →
    foldE (repointStep td rp) s l = .ok s2 →
    getFeats s2.store "connection_node" = getFeats s.store "connection_node" ∧
    s2.replacedNodes = s.replacedNodes ∧
    s2.shortChannels = s.shortChannels := by
  induction l with
  | nil =>
    intro s s2 _ h
    cases h
    exact ⟨rfl, rfl, rfl⟩
  | cons e rest ih =>
    intro s s2 hl h
    unfold foldE at h
    cases hr : repointStep td rp s e with
    | error er =>
      rw [hr] at h
      cases h
    | ok s1 =>
      rw [hr] at h
      have h1 := repointStep_keeps td rp s e s1 (hl e (List.mem_cons_self e rest)) hr
      have h2 := ih s1 s2 (fun e2 he2 => hl e2 (List.mem_cons_of_mem e he2)) h
      exact ⟨h2.1.trans h1.1, h2.2.1.trans h1.2.1, h2.2.2.trans h1.2.2⟩

theorem getref_step_keeps (tg : List String) (cid : Nat) (nid : NodeId)
    (acc : List RefEntry) (p : String × IndexT)
    (hacc : ∀ e ∈ acc, memB e.1 tg = true) :
    ∀ e ∈ (if memB p.1 tg then
        match lookupAssoc p.2 nid with
        | some b => acc ++ b.filterMap (fun e =>
            if p.1 = "channel" ∧ e.2.feat.fid = cid then none
            else some (p.1, e.1, e.2))
        | none => acc
      else acc), memB e.1 tg = true := by
  intro e he
  by_cases hm : memB p.1 tg = true
  · rw [if_pos hm] at he
    cases hb : lookupAssoc p.2 nid with
    | none =>
      rw [hb] at he
      exact hacc e he
    | some b =>
      rw [hb] at he
      rcases List.mem_append.mp he with hin | hin
      · exact hacc e hin
      · obtain ⟨q, _, hq⟩ := List.mem_filterMap.mp hin
        by_cases hqc : p.1 = "channel" ∧ q.2.feat.fid = cid
        · rw [if_pos hqc] at hq
          cases hq
        · rw [if_neg hqc] at hq
          cases hq
          exact hm
  · rw [if_neg hm] at he
    exact hacc e he

theorem getref_layers (idxs : List (String × IndexT)) (cid : Nat) (nid : NodeId)
    (tg : List String) :
    ∀ e ∈ get_referencing_features idxs cid nid tg, memB e.1 tg = true := by
  unfold get_referencing_features
  suffices hgen : ∀ (acc : List RefEntry), (∀ e ∈ acc, memB e.1 tg = true) →
      ∀ e ∈ idxs.foldl (fun acc p =>
        if memB p.1 tg then
          match lookupAssoc p.2 nid with
          | some b => acc ++ b.filterMap (fun e =>
              if p.1 = "channel" ∧ e.2.feat.fid = cid then none
              else some (p.1, e.1, e.2))
          | none => acc
        else acc) acc, memB e.1 tg = true by
    exact hgen [] (by intro e he; cases he)
  induction idxs with
  | nil =>
    intro acc hacc e he
    exact hacc e he
  | cons p rest ih =>
    intro acc hacc e he
    exact ih _ (getref_step_keeps tg cid nid acc p hacc) e he

theorem getFeats_setFeats_filter (s : Store) (n : String) (p : Feature → Bool) :
    getFeats (setFeats s n ((getFeats s n).filter p)) n = (getFeats s n).filter p :=
  getFeats_setFeats_apply s n (fun l => l.filter p) rfl

theorem getFeats_setFeats_map (s : Store) (n : String) (g : Feature → Feature) :
    getFeats (setFeats s n ((getFeats s n).map g)) n = (getFeats s n).map g :=
  getFeats_setFeats_apply s n (fun l => l.map g) rfl

theorem deleteFinalize_conn (st1 : SCDState) (cid : Nat) (td rp : NodeId) :
    getFeats (deleteFinalize st1 cid td rp).store "connection_node" =
      (getFeats st1.store "connection_node").filter
        (fun f => decide (¬ getFieldD f "id" = td)) := by
  show getFeats (delChanStore (delNodeStore (delCslStore st1.store cid) td) cid)
      "connection_node" = _
  unfold delChanStore delNodeStore delCslStore
  rw [getFeats_setFeats_ne _ _ _ _ (by decide), getFeats_setFeats_filter,
    getFeats_setFeats_ne _ _ _ _ (by decide)]

theorem delete_channel_core_spec (st : SCDState) (cid : Nat) (td rp : NodeId)
    (st2 : SCDState) (hok : delete_channel_core st cid td rp = .ok st2) :
    getFeats st2.store "connection_node" =
      (getFeats st.store "connection_node").filter
        (fun f => decide (¬ getFieldD f "id" = td)) ∧
    st2.replacedNodes = chainInsert st.replacedNodes td rp := by
  unfold delete_channel_core at hok
  cases hf : foldE (repointStep td rp) st
      (get_referencing_features st.indices cid td ALL_OBJECTS) with
  | error e =>
    rw [hf] at hok
    cases hok
  | ok st1 =>
    rw [hf] at hok
    cases hok
    have hlayers : ∀ e ∈ get_referencing_features st.indices cid td ALL_OBJECTS,
        ¬ "connection_node" = e.1 := by
      intro e he hc
      have hm := getref_layers st.indices cid td ALL_OBJECTS e he
      rw [← hc] at hm
      have hmem : ("connection_node" : String) ∈ ALL_OBJECTS := (memB_eq_true _ _).mp hm
      simp [ALL_OBJECTS, NETWORK_OBJECTS, MAPPING_OBJECTS, POINT_OBJECTS] at hmem
    have hkeep := foldRepoint_keeps _ td rp st st1 hlayers hf
    constructor
    · rw [deleteFinalize_conn, hkeep.1]
    · show chainInsert st1.replacedNodes td rp = chainInsert st.replacedNodes td rp
      rw [hkeep.2.1]

/-- C2: whenever `delete_channel` completes a merge (references found, guard
passed), the node it deletes from the connection_node layer and records in the
replacement chain is its end node when the recorded start-reference count
strictly exceeds the end-reference count, and its start node otherwise —
including ties — while the other endpoint survives as the replacement (resolved
through the chain). -/
theorem merge_deletes_lower_degree_endpoint (st : SCDState) (ch : FeatHandle)
    (refs : RefPair) (st2 : SCDState)
    (href : lookupAssoc st.referenceDict ch.feat.fid = some refs)
    (hguard : guardHit refs = false)
    (hok : delete_channel st ch = .ok st2) :
    getFeats st2.store "connection_node" =
      (getFeats st.store "connection_node").filter (fun f =>
        decide (¬ getFieldD f "id" =
          (if refs.startRefs.length > refs.endRefs.length
            then getFieldD ch.feat "connection_node_id_end"
            else getFieldD ch.feat "connection_node_id_start"))) ∧
    st2.replacedNodes = chainInsert st.replacedNodes
      (if refs.startRefs.length > refs.endRefs.length
        then getFieldD ch.feat "connection_node_id_end"
        else getFieldD ch.feat "connection_node_id_start")
      (replaced_connection_node_id st.replacedNodes
        (if refs.startRefs.length > refs.endRefs.length
          then getFieldD ch.feat "connection_node_id_start"
          else getFieldD ch.feat "connection_node_id_end")) := by
  unfold delete_channel at hok
  simp only [href] at hok
  rw [if_neg (by simp [hguard])] at hok
  exact delete_channel_core_spec st ch.feat.fid _ _ st2 hok

theorem merge_deletes_lower_degree_endpoint_witness :
    getFeats cex5After.store "connection_node" =
      (getFeats cex5State.store "connection_node").filter (fun f =>
        decide (¬ getFieldD f "id" =
          (if cex5Refs.startRefs.length > cex5Refs.endRefs.length
            then getFieldD cex5Chan.feat "connection_node_id_end"
            else getFieldD cex5Chan.feat "connection_node_id_start"))) ∧
    cex5After.replacedNodes = chainInsert cex5State.replacedNodes
      (if cex5Refs.startRefs.length > cex5Refs.endRefs.length
        then getFieldD cex5Chan.feat "connection_node_id_end"
        else getFieldD cex5Chan.feat "connection_node_id_start")
      (replaced_connection_node_id cex5State.replacedNodes
        (if cex5Refs.startRefs.length > cex5Refs.endRefs.length
          then getFieldD cex5Chan.feat "connection_node_id_start"
          else getFieldD cex5Chan.feat "connection_node_id_end")) :=
  merge_deletes_lower_degree_endpoint cex5State cex5Chan cex5Refs cex5After
    (by decide) (by decide) (by decide)

theorem buildGeomDict_go (feats : List Feature) (k : Int) :
    ∀ d, (feats.map Feature.fid).Nodup →
    lookupAssoc (feats.foldl (fun d f => updAssoc d (Int.ofNat f.fid) f.geom) d) k =
      match feats.find? (fun p => decide (Int.ofNat p.fid = k)) with
      | some g => some g.geom
      | none => lookupAssoc d k := by
  induction feats with
  | nil =>
    intro d _
    rfl
  | cons f rest ih =>
    intro d hnd
    have hnd2 : (rest.map Feature.fid).Nodup := by
      simpa using hnd.of_cons
    by_cases hk : Int.ofNat f.fid = k
    · rw [List.find?_cons_of_pos _ (by simp only [decide_eq_true_eq]; exact hk)]
      have hnotin : rest.find? (fun p => decide (Int.ofNat p.fid = k)) = none := by
        rw [List.find?_eq_none]
        intro g hg
        simp only [decide_eq_true_eq]
        intro hgk
        have : f.fid = g.fid := by
          have := hgk.trans hk.symm
          exact (Int.ofNat_inj.mp this).symm
        have hmem : f.fid ∈ rest.map Feature.fid :=
          List.mem_map.mpr ⟨g, hg, this.symm⟩
        simp only [List.map_cons, List.nodup_cons] at hnd
        exact hnd.1 hmem
      rw [List.foldl_cons, ih _ hnd2, hnotin, lookup_updAssoc, if_pos hk.symm]
    · rw [List.find?_cons_of_neg _ (by simp only [decide_eq_true_eq]; exact hk)]
      rw [List.foldl_cons, ih _ hnd2]
      cases hfind : rest.find? (fun p => decide (Int.ofNat p.fid = k)) with
      | some g => rfl
      | none =>
        rw [lookup_updAssoc, if_neg (fun hc : k = Int.ofNat f.fid => hk hc.symm)]

theorem buildGeomDict_lookup (feats : List Feature) (k : Int)
    (h : (feats.map Feature.fid).Nodup) :
    lookupAssoc (buildGeomDict feats) k =
      match feats.find? (fun p => decide (Int.ofNat p.fid = k)) with
      | some g => some g.geom
      | none => none := by
  unfold buildGeomDict
  rw [buildGeomDict_go feats k [] h]
  cases feats.find? (fun p => decide (Int.ofNat p.fid = k)) <;> rfl

/-- C10: `update_pump_map_geometries` touches only the pump_map layer, and sets
each pump_map feature's geometry to the two-point two-dimensional line from the
referenced pump's location to the referenced connection node's location (both
looked up by FID); a feature whose referenced pump or connection node does not
exist is left entirely unchanged, and the operation is total — no error is
raised. -/
theorem pump_map_refresh_spec (st : SCDState)
    (hp : ((getFeats st.store "pump").map Feature.fid).Nodup)
    (hc : ((getFeats st.store "connection_node").map Feature.fid).Nodup) :
    (∀ n, ¬ n = "pump_map" →
      getFeats (update_pump_map_geometries st).store n = getFeats st.store n) ∧
    getFeats (update_pump_map_geometries st).store "pump_map" =
      (getFeats st.store "pump_map").map (fun f =>
        match (getFeats st.store "pump").find?
            (fun p => decide (Int.ofNat p.fid = getFieldD f "pump_id")),
          (getFeats st.store "connection_node").find?
            (fun p => decide (Int.ofNat p.fid = getFieldD f "connection_node_id_end")) with
        | some pg, some cg =>
          { f with geom := ⟨false, [firstPt2D pg.geom, firstPt2D cg.geom]⟩ }
        | some _, none => f
        | none, _ => f) := by
  constructor
  · intro n hn
    exact getFeats_setFeats_ne _ _ _ _ hn
  · show getFeats (setFeats st.store "pump_map" ((getFeats st.store "pump_map").map
      (pumpMapFn (buildGeomDict (getFeats st.store "pump"))
        (buildGeomDict (getFeats st.store "connection_node"))))) "pump_map" = _
    rw [getFeats_setFeats_map]
    apply List.map_congr_left
    intro f _
    unfold pumpMapFn
    rw [buildGeomDict_lookup _ _ hp, buildGeomDict_lookup _ _ hc]
    cases (getFeats st.store "pump").find?
        (fun p => decide (Int.ofNat p.fid = getFieldD f "pump_id")) with
    | none => rfl
    | some pg =>
      cases (getFeats st.store "connection_node").find?
          (fun p => decide (Int.ofNat p.fid = getFieldD f "connection_node_id_end")) with
      | none => rfl
      | some cg => rfl

theorem pump_map_refresh_spec_witness :
    (∀ n, ¬ n = "pump_map" →
      getFeats (update_pump_map_geometries ⟨cexC10Store, [], [], [], []⟩).store n =
        getFeats (⟨cexC10Store, [], [], [], []⟩ : SCDState).store n) ∧
    getFeats (update_pump_map_geometries ⟨cexC10Store, [], [], [], []⟩).store "pump_map" =
      (getFeats (⟨cexC10Store, [], [], [], []⟩ : SCDState).store "pump_map").map (fun f =>
        match (getFeats (⟨cexC10Store, [], [], [], []⟩ : SCDState).store "pump").find?
            (fun p => decide (Int.ofNat p.fid = getFieldD f "pump_id")),
          (getFeats (⟨cexC10Store, [], [], [], []⟩ : SCDState).store "connection_node").find?
            (fun p => decide (Int.ofNat p.fid = getFieldD f "connection_node_id_end")) with
        | some pg, some cg =>
          { f with geom := ⟨false, [firstPt2D pg.geom, firstPt2D cg.geom]⟩ }
        | some _, none => f
        | none, _ => f) :=
  pump_map_refresh_spec ⟨cexC10Store, [], [], [], []⟩ (by decide) (by decide)

theorem lookup_append_single {α β : Type} [DecidableEq α] (t : List (α × β))
    (k k2 : α) (v : β) :
    lookupAssoc (t ++ [(k, v)]) k2 =
      match lookupAssoc t k2 with
      | some w => some w
      | none => if k2 = k then some v else none := by
  induction t with
  | nil => simp [lookupAssoc]
  | cons p r ih =>
    obtain ⟨a, b⟩ := p
    by_cases h2 : k2 = a <;> simp [lookupAssoc, h2, ih]

theorem entryIn_indexAdd (idx : IndexT) (nid2 : NodeId) (e2 : String × FeatHandle)
    (nid : NodeId) (e : String × FeatHandle) (h : entryIn idx nid e) :
    entryIn (indexAdd idx nid2 e2) nid e := by
  obtain ⟨b, hl, hm⟩ := h
  unfold indexAdd
  cases h2 : lookupAssoc idx nid2 with
  | some b2 =>
    by_cases hnn : nid = nid2
    · subst hnn
      rw [hl] at h2
      cases h2
      refine ⟨bucketAdd b e2, by rw [lookup_updAssoc, if_pos rfl], ?_⟩
      unfold bucketAdd
      by_cases hmm : memB e2 b = true
      · rw [if_pos hmm]
        exact hm
      · rw [if_neg hmm]
        exact List.mem_append_left _ hm
    · exact ⟨b, by rw [lookup_updAssoc, if_neg hnn]; exact hl, hm⟩
  | none =>
    refine ⟨b, ?_, hm⟩
    rw [lookup_append_single, hl]

theorem entryIn_indexAdd_self (idx : IndexT) (nid : NodeId) (e : String × FeatHandle) :
    entryIn (indexAdd idx nid e) nid e := by
  unfold indexAdd
  cases h2 : lookupAssoc idx nid with
  | some b =>
    refine ⟨bucketAdd b e, by rw [lookup_updAssoc, if_pos rfl], ?_⟩
    unfold bucketAdd
    by_cases hm : memB e b = true
    · rw [if_pos hm]
      exact (memB_eq_true _ _).mp hm
    · rw [if_neg hm]
      exact List.mem_append_right _ (List.mem_singleton.mpr rfl)
  | none =>
    refine ⟨[e], ?_, List.mem_singleton.mpr rfl⟩
    rw [lookup_append_single, h2]
    simp

theorem entryIn_innerFold (flds : List String) (name : String) (f : Feature) :
    ∀ (idx : IndexT) (nid : NodeId) (e : String × FeatHandle), entryIn idx nid e →
    entryIn (flds.foldl (fun idx2 fld =>
      indexAdd idx2 (getFieldD f fld) (fld, ⟨name, f⟩)) idx) nid e := by
  induction flds with
  | nil =>
    intro idx nid e h
    exact h
  | cons d rest ih =>
    intro idx nid e h
    exact ih _ nid e (entryIn_indexAdd idx (getFieldD f d) (d, ⟨name, f⟩) nid e h)

theorem entryIn_innerFold_self (flds : List String) (name : String) (f : Feature)
    (fld : String) (hf : fld ∈ flds) :
    ∀ idx : IndexT, entryIn (flds.foldl (fun idx2 fld2 =>
      indexAdd idx2 (getFieldD f fld2) (fld2, ⟨name, f⟩)) idx)
      (getFieldD f fld) (fld, ⟨name, f⟩) := by
  induction flds with
  | nil => cases hf
  | cons d rest ih =>
    intro idx
    rcases List.mem_cons.mp hf with hd | hr
    · subst hd
      exact entryIn_innerFold rest name f _ _ _ (entryIn_indexAdd_self idx _ _)
    · exact ih hr _

theorem entryIn_outerFold (feats : List Feature) (flds : List String) (name : String) :
    ∀ (idx : IndexT) (nid : NodeId) (e : String × FeatHandle), entryIn idx nid e →
    entryIn (feats.foldl (fun idx f => flds.foldl (fun idx2 fld =>
      indexAdd idx2 (getFieldD f fld) (fld, ⟨name, f⟩)) idx) idx) nid e := by
  induction feats with
  | nil =>
    intro idx nid e h
    exact h
  | cons g rest ih =>
    intro idx nid e h
    exact ih _ nid e (entryIn_innerFold flds name g idx nid e h)

theorem create_index_mem (l : LayerT) (f : Feature) (fld : String)
    (hf : f ∈ l.feats) (hfld : fld ∈ connFieldsOf l) :
    entryIn (create_index l) (getFieldD f fld) (fld, ⟨l.name, f⟩) := by
  unfold create_index
  suffices hgen : ∀ (feats : List Feature) (idx : IndexT), f ∈ feats →
      entryIn (feats.foldl (fun idx f => (connFieldsOf l).foldl (fun idx2 fld =>
        indexAdd idx2 (getFieldD f fld) (fld, ⟨l.name, f⟩)) idx) idx)
        (getFieldD f fld) (fld, ⟨l.name, f⟩) from hgen l.feats [] hf
  intro feats
  induction feats with
  | nil =>
    intro idx h
    cases h
  | cons g rest ih =>
    intro idx h
    rcases List.mem_cons.mp h with hg | hr
    · subst hg
      exact entryIn_outerFold rest _ _ _ _ _ (entryIn_innerFold_self _ _ _ fld hfld idx)
    · exact ih _ hr

theorem zeroFids_cons_pos (ch : Feature) (rest : List Feature)
    (hz : isZeroLength ch = true) :
    zeroFids (ch :: rest) = ch.fid :: zeroFids rest := by
  simp [zeroFids, List.filter_cons_of_pos hz]

theorem zeroFids_cons_neg (ch : Feature) (rest : List Feature)
    (hz : ¬ isZeroLength ch = true) :
    zeroFids (ch :: rest) = zeroFids rest := by
  simp [zeroFids, List.filter_cons_of_neg hz]

theorem memB_zeroFids (chs : List Feature) (hn : (chs.map Feature.fid).Nodup)
    (c : Feature) (hc : c ∈ chs) : memB c.fid (zeroFids chs) = isZeroLength c := by
  by_cases hz : isZeroLength c = true
  · rw [hz]
    exact (memB_eq_true _ _).mpr
      (List.mem_map.mpr ⟨c, List.mem_filter.mpr ⟨hc, hz⟩, rfl⟩)
  · have hzf : isZeroLength c = false := by
      cases h : isZeroLength c
      · rfl
      · exact absurd h hz
    rw [hzf]
    by_contra hme
    have hmt : memB c.fid (zeroFids chs) = true := by
      cases h : memB c.fid (zeroFids chs)
      · exact absurd h hme
      · rfl
    obtain ⟨c2, hc2, hfid⟩ := List.mem_map.mp ((memB_eq_true _ _).mp hmt)
    have hc2m := List.mem_filter.mp hc2
    have : c2 = c := List.inj_on_of_nodup_map hn hc2m.1 hc hfid
    rw [this] at hc2m
    exact hz hc2m.2

theorem foldE_cons {σ α : Type} (f : σ → α → Except String σ) (s : σ) (a : α)
    (l : List α) :
    foldE f s (a :: l) = match f s a with
      | .error e => .error e
      | .ok s2 => foldE f s2 l := rfl

theorem zeroStep_neg (st : SCDState) (acc : List Nat) (ch : Feature)
    (hz : ¬ isZeroLength ch = true) : zeroStep (st, acc) ch = .ok (st, acc) := by
  unfold zeroStep
  rw [if_neg hz]

theorem zeroStep_pos (st : SCDState) (acc : List Nat) (ch : Feature)
    (b : List (String × FeatHandle)) (hz : isZeroLength ch = true)
    (hbl : lookupAssoc ((lookupAssoc st.indices "channel").getD [])
      (getFieldD ch "connection_node_id_start") = some b) :
    zeroStep (st, acc) ch = .ok
      ({ st with
         store := delChanStore (delCslStore st.store ch.fid) ch.fid
         indices := updAssoc st.indices "channel"
           (if b.filter (fun e => decide (¬ e.2.feat.fid = ch.fid)) = []
            then eraseKey ((lookupAssoc st.indices "channel").getD [])
              (getFieldD ch "connection_node_id_start")
            else updAssoc ((lookupAssoc st.indices "channel").getD [])
              (getFieldD ch "connection_node_id_start")
              (b.filter (fun e => decide (¬ e.2.feat.fid = ch.fid)))) },
       acc ++ [ch.fid]) := by
  unfold zeroStep
  rw [if_pos hz]
  simp only [hbl]

theorem zeroFold_spec (chs : List Feature) :
    ∀ (st : SCDState) (acc : List Nat),
    (chs.map Feature.fid).Nodup →
    (∀ ch ∈ chs, isZeroLength ch = true →
      entryIn ((lookupAssoc st.indices "channel").getD [])
        (getFieldD ch "connection_node_id_start")
        ("connection_node_id_start", ⟨"channel", ch⟩)) →
    ∃ st2, foldE zeroStep (st, acc) chs = .ok (st2, acc ++ zeroFids chs) ∧
      getFeats st2.store "channel" =
        (getFeats st.store "channel").filter (fun f => ! memB f.fid (zeroFids chs)) ∧
      getFeats st2.store "cross_section_location" =
        (getFeats st.store "cross_section_location").filter
          (fun f => ! memB (getFieldD f "channel_id") ((zeroFids chs).map Int.ofNat)) ∧
      (∀ n, ¬ n = "channel" → ¬ n = "cross_section_location" →
        getFeats st2.store n = getFeats st.store n) ∧
      st2.shortChannels = st.shortChannels ∧
      st2.referenceDict = st.referenceDict ∧
      st2.replacedNodes = st.replacedNodes := by
  induction chs with
  | nil =>
    intro st acc _ _
    refine ⟨st, ?_, ?_, ?_, fun n _ _ => rfl, rfl, rfl, rfl⟩
    · show Except.ok (st, acc) = Except.ok (st, acc ++ zeroFids [])
      simp [zeroFids]
    · simp [zeroFids, memB]
    · simp [zeroFids, memB]
  | cons ch rest ih =>
    intro st acc hn hb
    have hnd2 : (rest.map Feature.fid).Nodup := by
      simpa using hn.of_cons
    have hfidne : ∀ c2 ∈ rest, ¬ c2.fid = ch.fid := by
      intro c2 hc2 hfe
      simp only [List.map_cons, List.nodup_cons] at hn
      exact hn.1 (List.mem_map.mpr ⟨c2, hc2, hfe⟩)
    by_cases hz : isZeroLength ch = true
    · obtain ⟨b, hbl, hbm⟩ := hb ch (List.mem_cons_self ch rest) hz
      have hbpres : ∀ c2 ∈ rest, isZeroLength c2 = true →
          entryIn ((lookupAssoc (updAssoc st.indices "channel"
                (if b.filter (fun e => decide (¬ e.2.feat.fid = ch.fid)) = []
                 then eraseKey ((lookupAssoc st.indices "channel").getD [])
                   (getFieldD ch "connection_node_id_start")
                 else updAssoc ((lookupAssoc st.indices "channel").getD [])
                   (getFieldD ch "connection_node_id_start")
                   (b.filter (fun e => decide (¬ e.2.feat.fid = ch.fid)))))
            "channel").getD [])
            (getFieldD c2 "connection_node_id_start")
            ("connection_node_id_start", ⟨"channel", c2⟩) := by
        intro c2 hc2 hz2
        obtain ⟨b2, hb2l, hb2m⟩ := hb c2 (List.mem_cons_of_mem ch hc2) hz2
        have hidx : (lookupAssoc (updAssoc st.indices "channel"
            (if b.filter (fun e => decide (¬ e.2.feat.fid = ch.fid)) = []
             then eraseKey ((lookupAssoc st.indices "channel").getD [])
               (getFieldD ch "connection_node_id_start")
             else updAssoc ((lookupAssoc st.indices "channel").getD [])
               (getFieldD ch "connection_node_id_start")
               (b.filter (fun e => decide (¬ e.2.feat.fid = ch.fid)))))
            "channel").getD [] =
            (if b.filter (fun e => decide (¬ e.2.feat.fid = ch.fid)) = []
             then eraseKey ((lookupAssoc st.indices "channel").getD [])
               (getFieldD ch "connection_node_id_start")
             else updAssoc ((lookupAssoc st.indices "channel").getD [])
               (getFieldD ch "connection_node_id_start")
               (b.filter (fun e => decide (¬ e.2.feat.fid = ch.fid)))) := by
          rw [lookup_updAssoc, if_pos rfl]
          rfl
        show entryIn _ (getFieldD c2 "connection_node_id_start") _
        rw [hidx]
        by_cases hnn : getFieldD c2 "connection_node_id_start" =
            getFieldD ch "connection_node_id_start"
        · rw [hnn] at hb2l
          rw [hbl] at hb2l
          cases hb2l
          have hmemnb : ("connection_node_id_start",
              (⟨"channel", c2⟩ : FeatHandle)) ∈
              b.filter (fun e => decide (¬ e.2.feat.fid = ch.fid)) := by
            refine List.mem_filter.mpr ⟨hb2m, ?_⟩
            simp only [decide_eq_true_eq]
            exact hfidne c2 hc2
          have hne : ¬ b.filter (fun e => decide (¬ e.2.feat.fid = ch.fid)) = [] :=
            List.ne_nil_of_mem hmemnb
          rw [if_neg hne]
          refine ⟨b.filter (fun e => decide (¬ e.2.feat.fid = ch.fid)), ?_, hmemnb⟩
          rw [lookup_updAssoc, hnn, if_pos rfl]
        · by_cases hnb : b.filter (fun e => decide (¬ e.2.feat.fid = ch.fid)) = []
          · rw [if_pos hnb]
            refine ⟨b2, ?_, hb2m⟩
            rw [lookup_eraseKey, if_neg hnn]
            exact hb2l
          · rw [if_neg hnb]
            refine ⟨b2, ?_, hb2m⟩
            rw [lookup_updAssoc, if_neg hnn]
            exact hb2l
      obtain ⟨st2, hfold, hchan, hcsl, hother, hsc, hrd, hrn⟩ :=
        ih ({ st with
              store := delChanStore (delCslStore st.store ch.fid) ch.fid
              indices := updAssoc st.indices "channel"
                (if b.filter (fun e => decide (¬ e.2.feat.fid = ch.fid)) = []
                 then eraseKey ((lookupAssoc st.indices "channel").getD [])
                   (getFieldD ch "connection_node_id_start")
                 else updAssoc ((lookupAssoc st.indices "channel").getD [])
                   (getFieldD ch "connection_node_id_start")
                   (b.filter (fun e => decide (¬ e.2.feat.fid = ch.fid)))) })
          (acc ++ [ch.fid]) hnd2 hbpres
      refine ⟨st2, ?_, ?_, ?_, ?_, hsc, hrd, hrn⟩
      · rw [foldE_cons, zeroStep_pos st acc ch b hz hbl]
        rw [zeroFids_cons_pos ch rest hz]
        rw [show acc ++ (ch.fid :: zeroFids rest) =
          acc ++ [ch.fid] ++ zeroFids rest by rw [List.append_assoc]; rfl]
        exact hfold
      · rw [hchan]
        show (getFeats (delChanStore (delCslStore st.store ch.fid) ch.fid)
          "channel").filter _ = _
        unfold delChanStore
        rw [getFeats_setFeats_filter]
        unfold delCslStore
        rw [getFeats_setFeats_ne _ _ _ _ (by decide)]
        rw [List.filter_filter, zeroFids_cons_pos ch rest hz]
        apply List.filter_congr
        intro f _
        by_cases hfz : f.fid = ch.fid
        · simp [memB, hfz]
        · simp only [memB, List.any_cons, Bool.not_or, decide_eq_true_eq]
          simp [hfz]
          exact fun _ h => hfz h.symm
      · rw [hcsl]
        show (getFeats (delChanStore (delCslStore st.store ch.fid) ch.fid)
          "cross_section_location").filter _ = _
        unfold delChanStore
        rw [getFeats_setFeats_ne _ _ _ _ (by decide)]
        unfold delCslStore
        rw [getFeats_setFeats_filter]
        rw [List.filter_filter, zeroFids_cons_pos ch rest hz]
        apply List.filter_congr
        intro f _
        by_cases hfz : getFieldD f "channel_id" = Int.ofNat ch.fid
        · simp [memB, hfz]
        · simp only [memB, List.map_cons, List.any_cons, Bool.not_or,
            decide_eq_true_eq]
          simp [hfz]
          rw [Bool.and_comm]
          congr 1
          simp [eq_comm]
      · intro n hn1 hn2
        rw [hother n hn1 hn2]
        show getFeats (delChanStore (delCslStore st.store ch.fid) ch.fid) n =
          getFeats st.store n
        unfold delChanStore delCslStore
        rw [getFeats_setFeats_ne _ _ _ _ hn1, getFeats_setFeats_ne _ _ _ _ hn2]
    · obtain ⟨st2, hfold, hchan, hcsl, hother, hsc, hrd, hrn⟩ := ih st acc hnd2
        (fun c2 hc2 hz2 => hb c2 (List.mem_cons_of_mem ch hc2) hz2)
      refine ⟨st2, ?_, ?_, ?_, hother, hsc, hrd, hrn⟩
      · rw [foldE_cons, zeroStep_neg st acc ch hz, zeroFids_cons_neg ch rest hz]
        exact hfold
      · rw [hchan, zeroFids_cons_neg ch rest hz]
      · rw [hcsl, zeroFids_cons_neg ch rest hz]

theorem getLayerD_name (s : Store) (n : String) : (getLayerD s n).name = n := by
  unfold getLayerD
  cases h : s.find? (fun l => decide (l.name = n)) with
  | none => rfl
  | some l =>
    have hp := List.find?_some h
    simp only [decide_eq_true_eq] at hp
    simpa using hp

theorem runDeleter_ok_phase1 (st st1 : SCDState) (ids : Option (List Nat))
    (h : delete_zero_length_channels st ids = .ok st1) :
    runDeleter st ids = (phaseTwo st1 ids).map update_pump_map_geometries := by
  unfold runDeleter
  simp only [h]
  cases hp : phaseTwo st1 ids <;> simp only [hp] <;> rfl

/-- C6: on any store whose channel FIDs are distinct and whose channel layer
schema carries the start-node field, phase 1 (`delete_zero_length_channels`,
as invoked by `run` with no id restriction) succeeds and removes exactly the
channels whose start-node identifier equals their end-node identifier together
with every cross-section location keyed to such a channel's identifier, while
the connection-node layer (so in particular the shared node) and every other
layer are left untouched; and `run` continues into the phase-2 merge loop only
from the state this completed phase produced. -/
theorem zero_length_phase_spec (lenG : Geom → Int) (t : Int) (S : Store)
    (hn : ((getFeats S "channel").map Feature.fid).Nodup)
    (hfld : memB "connection_node_id_start" (getLayerD S "channel").fieldNames = true) :
    ∃ st2, delete_zero_length_channels (initState lenG S t) none = .ok st2 ∧
      getFeats st2.store "channel" =
        (getFeats S "channel").filter (fun c => ! isZeroLength c) ∧
      getFeats st2.store "cross_section_location" =
        (getFeats S "cross_section_location").filter
          (fun f => ! memB (getFieldD f "channel_id")
            (List.map Int.ofNat (zeroFids (getFeats S "channel")))) ∧
      getFeats st2.store "connection_node" = getFeats S "connection_node" ∧
      (∀ n, ¬ n = "channel" → ¬ n = "cross_section_location" →
        getFeats st2.store n = getFeats S n) ∧
      runDeleter (initState lenG S t) none =
        (phaseTwo st2 none).map update_pump_map_geometries := by
  have hidx0 : lookupAssoc (initState lenG S t).indices "channel" =
      some (create_index (getLayerD S "channel")) := by
    show lookupAssoc (ALL_OBJECTS.map fun n => (n, create_index (getLayerD S n)))
      "channel" = _
    simp [ALL_OBJECTS, NETWORK_OBJECTS, MAPPING_OBJECTS, POINT_OBJECTS, lookupAssoc]
  have hbkt : ∀ ch ∈ getFeats S "channel", isZeroLength ch = true →
      entryIn ((lookupAssoc (initState lenG S t).indices "channel").getD [])
        (getFieldD ch "connection_node_id_start")
        ("connection_node_id_start", ⟨"channel", ch⟩) := by
    intro ch hch _
    rw [hidx0]
    show entryIn (create_index (getLayerD S "channel"))
      (getFieldD ch "connection_node_id_start") _
    have hmem : "connection_node_id_start" ∈ connFieldsOf (getLayerD S "channel") :=
      List.mem_filter.mpr ⟨by simp [connFieldCandidates], hfld⟩
    have hent := create_index_mem (getLayerD S "channel") ch
      "connection_node_id_start" hch hmem
    rw [getLayerD_name S "channel"] at hent
    exact hent
  obtain ⟨st2, hfold, hchan, hcsl, hother, hsc, hrd, hrn⟩ :=
    zeroFold_spec (getFeats S "channel") (initState lenG S t) [] hn hbkt
  have hstore : (initState lenG S t).store = S := rfl
  rw [hstore] at hchan hcsl hother
  have hdel : delete_zero_length_channels (initState lenG S t) none =
      .ok { st2 with
            shortChannels :=
              st2.shortChannels.filter
                (fun h =>
                  ! memB h.feat.fid ([] ++ zeroFids (getFeats S "channel"))) } := by
    show (match foldE zeroStep (initState lenG S t, [])
        (getFeats (initState lenG S t).store "channel") with
      | Except.error e => Except.error e
      | Except.ok r =>
        Except.ok { r.1 with
                    shortChannels :=
                      r.1.shortChannels.filter
                        (fun h => ! memB h.feat.fid r.2) }) = _
    rw [hstore, hfold]
  refine ⟨{ st2 with
            shortChannels :=
              st2.shortChannels.filter
                (fun h =>
                  ! memB h.feat.fid ([] ++ zeroFids (getFeats S "channel"))) },
    hdel, ?_, ?_, ?_, ?_, ?_⟩
  · show getFeats st2.store "channel" = _
    rw [hchan]
    exact List.filter_congr (fun c hc => by rw [memB_zeroFids _ hn c hc])
  · exact hcsl
  · exact hother "connection_node" (by decide) (by decide)
  · exact fun n h1 h2 => hother n h1 h2
  · exact runDeleter_ok_phase1 _ _ none hdel

/-- Witness: the claim instantiated on the concrete store `cex6Store`, whose
zero-length channel 1 (both endpoints node 5) and its cross-section location
are removed while node 5, channel 2 and its cross-section location survive. -/
theorem zero_length_phase_spec_witness :
    ∃ st2, delete_zero_length_channels (initState axisLen cex6Store 0) none = .ok st2 ∧
      getFeats st2.store "channel" =
        (getFeats cex6Store "channel").filter (fun c => ! isZeroLength c) ∧
      getFeats st2.store "cross_section_location" =
        (getFeats cex6Store "cross_section_location").filter
          (fun f => ! memB (getFieldD f "channel_id")
            (List.map Int.ofNat (zeroFids (getFeats cex6Store "channel")))) ∧
      getFeats st2.store "connection_node" = getFeats cex6Store "connection_node" ∧
      (∀ n, ¬ n = "channel" → ¬ n = "cross_section_location" →
        getFeats st2.store n = getFeats cex6Store n) ∧
      runDeleter (initState axisLen cex6Store 0) none =
        (phaseTwo st2 none).map update_pump_map_geometries :=
  zero_length_phase_spec axisLen 0 cex6Store (by decide) (by decide)

theorem pumpMapFn_idem (d1 d2 : List (Int × Geom)) (f : Feature) :
    pumpMapFn d1 d2 (pumpMapFn d1 d2 f) = pumpMapFn d1 d2 f := by
  cases h1 : lookupAssoc d1 (getFieldD f "pump_id") with
  | none =>
    have e1 : pumpMapFn d1 d2 f = f := by
      unfold pumpMapFn
      rw [h1]
    rw [e1]
    exact e1
  | some pg =>
    cases h2 : lookupAssoc d2 (getFieldD f "connection_node_id_end") with
    | none =>
      have e1 : pumpMapFn d1 d2 f = f := by
        unfold pumpMapFn
        rw [h1, h2]
      rw [e1]
      exact e1
    | some cg =>
      have e1 : pumpMapFn d1 d2 f =
          { f with geom := ⟨false, [firstPt2D pg, firstPt2D cg]⟩ } := by
        unfold pumpMapFn
        rw [h1, h2]
      rw [e1]
      have h1b : lookupAssoc d1 (getFieldD
          { f with geom := (⟨false, [firstPt2D pg, firstPt2D cg]⟩ : Geom) }
          "pump_id") = some pg := h1
      have h2b : lookupAssoc d2 (getFieldD
          { f with geom := (⟨false, [firstPt2D pg, firstPt2D cg]⟩ : Geom) }
          "connection_node_id_end") = some cg := h2
      unfold pumpMapFn
      rw [h1b, h2b]

theorem storePumpUpd_idem (X : Store) :
    storePumpUpd (storePumpUpd X) = storePumpUpd X := by
  unfold storePumpUpd
  rw [getFeats_setFeats_ne X "pump_map" "pump" _ (by decide)]
  rw [getFeats_setFeats_ne X "pump_map" "connection_node" _ (by decide)]
  rw [getFeats_setFeats_apply X "pump_map" (List.map
    (pumpMapFn (buildGeomDict (getFeats X "pump"))
      (buildGeomDict (getFeats X "connection_node")))) rfl]
  rw [setFeats_setFeats]
  congr 1
  rw [List.map_map]
  exact List.map_congr_left (fun a _ => pumpMapFn_idem _ _ a)

theorem foldE_zeroStep_noop (chs : List Feature) :
    ∀ (st : SCDState) (acc : List Nat), (∀ c ∈ chs, ¬ isZeroLength c = true) →
    foldE zeroStep (st, acc) chs = .ok (st, acc) := by
  induction chs with
  | nil =>
    intro st acc _
    rfl
  | cons c rest ih =>
    intro st acc h
    rw [foldE_cons, zeroStep_neg st acc c (h c (List.mem_cons_self c rest))]
    exact ih st acc (fun c2 hc2 => h c2 (List.mem_cons_of_mem c hc2))

/-- C5 (counterexample): the compactor is not idempotent.  On `cex5Store`
(threshold 5) the first run merges short channel 2 and, in doing so, repoints
channel 1's end vertex, shrinking channel 1 from length 6 to length 2 — below
the threshold.  The second run on the first run's output therefore deletes
channel 1 as well, and the store after the second run differs from the store
after the first run. -/
theorem second_run_deletes_more :
    runOnStore axisLen 5 cex5Store = .ok cex5Run1 ∧
    runOnStore axisLen 5 cex5Run1 = .ok cex5Run2 ∧
    ¬ cex5Run2 = cex5Run1 :=
  ⟨by decide, by decide, by decide⟩

/-- C5 (amended): a second run with the same threshold reproduces the first
run's store exactly when the first run's output has no zero-length channel and
no channel under the threshold left (which the original claim took for
granted, and which `second_run_deletes_more` refutes in general): then phase 1
deletes nothing, phase 2 has no tracked short channel to merge, and phase 3's
geometry refresh is idempotent, so the run returns the same store. -/
theorem second_run_identity_when_compacted (lenG : Geom → Int) (t : Int)
    (S0 S1 : Store) (h1 : runOnStore lenG t S0 = .ok S1)
    (hz : ∀ c ∈ getFeats S1 "channel", ¬ isZeroLength c = true)
    (hs : ∀ c ∈ getFeats S1 "channel", ¬ lenG c.geom < t) :
    runOnStore lenG t S1 = .ok S1 := by
  have hS1 : storePumpUpd S1 = S1 := by
    unfold runOnStore at h1
    cases hr : runDeleter (initState lenG S0 t) none with
    | error e =>
      rw [hr] at h1
      simp [Except.map] at h1
    | ok stF =>
      rw [hr] at h1
      have hfs : stF.store = S1 := by
        simpa [Except.map] using h1
      unfold runDeleter at hr
      cases hda : delete_zero_length_channels (initState lenG S0 t) none with
      | error e =>
        simp only [hda] at hr
        cases hr
      | ok sA =>
        simp only [hda] at hr
        cases hpb : phaseTwo sA none with
        | error e =>
          simp only [hpb] at hr
          cases hr
        | ok sB =>
          simp only [hpb] at hr
          have hupd : update_pump_map_geometries sB = stF := by
            cases hr
            rfl
          have : storePumpUpd sB.store = S1 := by
            rw [← hfs, ← hupd]
            rfl
          rw [← this]
          exact storePumpUpd_idem sB.store
  have hshorts : (initState lenG S1 t).shortChannels = [] := by
    show ((getFeats S1 "channel").filter
        (fun c => decide (lenG c.geom < t))).map
        (fun c => (⟨"channel", c⟩ : FeatHandle)) = []
    have hfil : (getFeats S1 "channel").filter
        (fun c => decide (lenG c.geom < t)) = [] := by
      rw [List.filter_eq_nil_iff]
      intro c hc
      simp [hs c hc]
    rw [hfil]
    rfl
  have hd1 : delete_zero_length_channels (initState lenG S1 t) none =
      .ok { initState lenG S1 t with shortChannels := [] } := by
    show (match foldE zeroStep (initState lenG S1 t, [])
        (getFeats (initState lenG S1 t).store "channel") with
      | Except.error e => Except.error e
      | Except.ok r =>
        Except.ok { r.1 with
                    shortChannels :=
                      r.1.shortChannels.filter
                        (fun h => ! memB h.feat.fid r.2) }) = _
    rw [show (initState lenG S1 t).store = S1 from rfl,
      foldE_zeroStep_noop (getFeats S1 "channel") (initState lenG S1 t) [] hz]
    show Except.ok
        { initState lenG S1 t with
          shortChannels :=
            (initState lenG S1 t).shortChannels.filter
              (fun h => ! memB h.feat.fid ([] : List Nat)) } =
      Except.ok { initState lenG S1 t with shortChannels := [] }
    rw [hshorts]
    rfl
  show (runDeleter (initState lenG S1 t) none).map SCDState.store = .ok S1
  rw [runDeleter_ok_phase1 _ _ none hd1]
  rw [show phaseTwo { initState lenG S1 t with shortChannels := [] } none =
    .ok { initState lenG S1 t with shortChannels := [] } from rfl]
  show Except.ok (storePumpUpd S1) = Except.ok S1
  rw [hS1]

/-- Witness: on `cex6Store` with threshold 0 the first run removes only the
zero-length channel; its output satisfies the amended side conditions, and the
second run returns it unchanged. -/
theorem second_run_identity_when_compacted_witness :
    runOnStore axisLen 0 cex6Store = .ok cex6Run1 ∧
    runOnStore axisLen 0 cex6Run1 = .ok cex6Run1 :=
  ⟨by decide, second_run_identity_when_compacted axisLen 0 cex6Store cex6Run1
    (by decide) (by decide) (by decide)⟩

end D2T
